import Mathlib

/-!
# Pilot motor component: jump state machine, direction, displacement, dispatch

A shallow embedding of
`engine/source/runtime/function/framework/component/motor/motor_component.cpp`.

* The definitions are generic in the scalar type `F` and use only its
  operations (`0`, `1`, `2`, `+`, `-`, `*`, `/`, negation, `=` and `≤`), so they
  can be run with any arithmetic. The general theorems take `F` to be a linear
  ordered field (exact arithmetic), or state the few laws they need; `Float32`
  is a model of the finite values of C++ `float` (IEEE 754 binary32, round to
  nearest even) on which the definitions are evaluated where rounding matters.
* `Math::sqrt` is not part of the translation unit and is taken as a parameter
  `sqrt : F → F`.
* The values of the `GameCommand` enumerators are declared in the input system
  header; they are taken as a parameter (structure `GameCommand`).
* The singletons read by the code (input system, world manager) become explicit
  arguments: the polled command and the optional active level.
* `CharacterController::move` is opaque collision code and is taken as a
  parameter `move`.
* Dereferencing a null pointer (absent transform component, absent controller)
  is modelled as failure: the functions concerned return `Option`.
* The default member initialisers of the component are declared in its header
  and are modelled (`MotorComponent.initial`); the constructor itself is
  translated from the source.
-/

namespace Pilot

set_option linter.unusedSectionVars false
set_option linter.dupNamespace false

/-! ## Math types -/

/-- Modelled from the spec: `Vector3` of `runtime/core/math` is not under the
sources read here; three scalar coordinates, with `z` the vertical one. -/
structure Vector3 (F : Type) where
  x : F
  y : F
  z : F
deriving DecidableEq

/-- Modelled from the spec: `Quaternion` of `runtime/core/math` (the facing
rotation), with scalar part `w` and vector part `(x, y, z)`. -/
structure Quaternion (F : Type) where
  w : F
  x : F
  y : F
  z : F
deriving DecidableEq

namespace Vector3

variable {F : Type} [Zero F] [One F] [OfNat F 2] [Neg F] [Add F] [Sub F] [Mul F] [Div F]
  [DecidableEq F] [LE F] [∀ a b : F, Decidable (a ≤ b)]

/-- Modelled from the spec: the constant `Vector3::ZERO`. -/
def ZERO : Vector3 F := ⟨0, 0, 0⟩

/-- Modelled from the spec: the constant `Vector3::UNIT_X`, the canonical left axis. -/
def UNIT_X : Vector3 F := ⟨1, 0, 0⟩

/-- Modelled from the spec: the constant `Vector3::UNIT_Z`, the vertical axis. -/
def UNIT_Z : Vector3 F := ⟨0, 0, 1⟩

/-- Modelled from the spec: the constant `Vector3::NEGATIVE_UNIT_Y`, the canonical
forward axis. -/
def NEGATIVE_UNIT_Y : Vector3 F := ⟨0, -1, 0⟩

/-- Modelled from the spec: `Vector3::operator+` (and `+=`), componentwise. -/
def add (a b : Vector3 F) : Vector3 F := ⟨a.x + b.x, a.y + b.y, a.z + b.z⟩

/-- Modelled from the spec: `Vector3::operator-` (and `-=`), componentwise. -/
def sub (a b : Vector3 F) : Vector3 F := ⟨a.x - b.x, a.y - b.y, a.z - b.z⟩

/-- Modelled from the spec: `Vector3::operator*(float)`, scaling every coordinate. -/
def scale (a : Vector3 F) (s : F) : Vector3 F := ⟨a.x * s, a.y * s, a.z * s⟩

/-- Modelled from the spec: `Vector3::crossProduct`. -/
def crossProduct (a b : Vector3 F) : Vector3 F :=
  ⟨a.y * b.z - a.z * b.y, a.z * b.x - a.x * b.z, a.x * b.y - a.y * b.x⟩

instance : Add (Vector3 F) := ⟨add⟩
instance : Sub (Vector3 F) := ⟨sub⟩
instance : HMul (Vector3 F) F (Vector3 F) := ⟨scale⟩

/-- Modelled from the spec: `Vector3::normalise` ("Normalize the sum; if the sum
is the zero vector, the result is the zero vector"): a vector of length zero is
left as it is, any other vector is scaled by the inverse of its length. -/
def normalise (sqrt : F → F) (v : Vector3 F) : Vector3 F :=
  let length := sqrt (v.x * v.x + v.y * v.y + v.z * v.z)
  if length = 0 then v
  else
    let inv_length := 1 / length
    ⟨v.x * inv_length, v.y * inv_length, v.z * inv_length⟩

end Vector3

namespace Quaternion

variable {F : Type} [Zero F] [One F] [OfNat F 2] [Neg F] [Add F] [Sub F] [Mul F] [Div F]
  [DecidableEq F] [LE F] [∀ a b : F, Decidable (a ≤ b)]

/-- Modelled from the spec: the constant `Quaternion::IDENTITY`. -/
def IDENTITY : Quaternion F := ⟨1, 0, 0, 0⟩

/-- Modelled from the spec: `Quaternion::operator*(Vector3)`, "rotating the
canonical forward/left axes by the facing rotation":
`v + 2w (q × v) + 2 q × (q × v)` with `q` the vector part. -/
def rotate (q : Quaternion F) (v : Vector3 F) : Vector3 F :=
  let qvec : Vector3 F := ⟨q.x, q.y, q.z⟩
  let uv := qvec.crossProduct v
  let uuv := qvec.crossProduct uv
  v + uv * (2 * q.w) + uuv * (2 : F)

end Quaternion

/-! ## Enumerations and records of the component -/

/-- The enumeration `JumpState`. -/
inductive JumpState where
  | idle
  | rising
  | falling
deriving DecidableEq

/-- The enumeration `ControllerType`. -/
inductive ControllerType where
  | none
  | physics
  | invalid
deriving DecidableEq

/-- The enumerators of `GameCommand` used by the motor, as `unsigned int` masks.
Their values are declared outside the translation unit. -/
structure GameCommand where
  forward : Nat
  backward : Nat
  left : Nat
  right : Nat
  jump : Nat
  sprint : Nat
  invalid : Nat

/-- The capsule descriptor of a `PhysicsControllerConfig`. -/
structure Capsule (F : Type) where
  m_radius : F
  m_half_height : F
deriving DecidableEq

/-- The object behind a controller configuration pointer. -/
inductive ControllerConfig (F : Type) where
  | physicsControllerConfig (m_capsule_shape : Capsule F)
  | otherConfig
deriving DecidableEq

/-- A reflection pointer to a controller configuration: the recorded type name
and the instance, `none` for a null pointer. -/
structure ReflectionPtr (F : Type) where
  m_type_name : String
  m_instance : Option (ControllerConfig F)
deriving DecidableEq

/-- The resource `MotorRes`. -/
structure MotorRes (F : Type) where
  m_move_speed : F
  m_jump_height : F
  m_controller_type : ControllerType
  m_controller_config : ReflectionPtr F
deriving DecidableEq

/-- A `CharacterController`, built from a capsule shape. -/
structure CharacterController (F : Type) where
  m_capsule : Capsule F
deriving DecidableEq

/-- The member variables of `MotorComponent`; `m_controller` is `none` for a
null pointer. -/
structure MotorComponent (F : Type) where
  m_tick_in_editor_mode : Bool
  m_motor_res : MotorRes F
  m_move_speed : F
  m_move_speed_ratio : F
  m_vertical_move_speed : F
  m_jump_horizontal_speed_ratio : F
  m_desired_displacement : Vector3 F
  m_desired_horizontal_move_direction : Vector3 F
  m_target_position : Vector3 F
  m_jump_state : JumpState
  m_controller : Option (CharacterController F)
deriving DecidableEq

/-- The state of a `TransformComponent` the motor reads and writes. -/
structure TransformComponent (F : Type) where
  m_position : Vector3 F
  m_rotation : Quaternion F
deriving DecidableEq

/-- The active level, as far as the motor reads it. -/
structure Level (F : Type) where
  m_gravity : F
deriving DecidableEq

/-- The parent object as the motor sees it: the motor itself and the transform
component, `none` when `tryGetComponent` finds none. -/
structure GObject (F : Type) where
  motor : MotorComponent F
  transform : Option (TransformComponent F)
deriving DecidableEq

/-! ## The member functions -/

section Functions

variable {F : Type} [Zero F] [One F] [OfNat F 2] [Neg F] [Add F] [Sub F] [Mul F] [Div F]
  [DecidableEq F] [LE F] [∀ a b : F, Decidable (a ≤ b)]

/-- The C++ test `(unsigned int)mask & command`. -/
def bitSet (mask command : Nat) : Bool := (mask &&& command) != 0

/-- `MotorComponent::calculatedDesiredMoveSpeed`; `level` is the result of
`getCurrentActiveLevel()`. -/
def calculatedDesiredMoveSpeed (gc : GameCommand) (sqrt : F → F) (level : Option (Level F))
    (m : MotorComponent F) (command : Nat) (delta_time : F) : MotorComponent F :=
  let m := { m with m_move_speed_ratio := if bitSet gc.sprint command then 2 else 1 }
  match level with
  | none => m
  | some level =>
    let gravity := level.m_gravity
    match m.m_jump_state with
    | JumpState.idle =>
      if bitSet gc.jump command then
        { m with
          m_jump_state := JumpState.rising
          m_vertical_move_speed := sqrt (m.m_motor_res.m_jump_height * 2 * gravity)
          m_jump_horizontal_speed_ratio := m.m_move_speed_ratio }
      else
        { m with m_vertical_move_speed := 0, m_jump_state := JumpState.idle }
    | JumpState.rising | JumpState.falling =>
      let m := { m with m_vertical_move_speed := m.m_vertical_move_speed - gravity * delta_time }
      if m.m_vertical_move_speed ≤ 0 then { m with m_jump_state := JumpState.falling } else m

/-- `MotorComponent::calculatedDesiredMoveDirection`. -/
def calculatedDesiredMoveDirection (gc : GameCommand) (sqrt : F → F)
    (m : MotorComponent F) (command : Nat) (object_rotation : Quaternion F) : MotorComponent F :=
  if m.m_jump_state = JumpState.idle then
    let forward_dir := object_rotation.rotate Vector3.NEGATIVE_UNIT_Y
    let left_dir := object_rotation.rotate Vector3.UNIT_X
    let d : Vector3 F := Vector3.ZERO
    let d := if bitSet gc.forward command then d + forward_dir else d
    let d := if bitSet gc.backward command then d - forward_dir else d
    let d := if bitSet gc.left command then d + left_dir else d
    let d := if bitSet gc.right command then d - left_dir else d
    { m with m_desired_horizontal_move_direction := d.normalise sqrt }
  else m

/-- `MotorComponent::calculateDesiredDisplacement`. -/
def calculateDesiredDisplacement (m : MotorComponent F) (delta_time : F) : MotorComponent F :=
  if m.m_jump_state = JumpState.idle then
    { m with
      m_desired_displacement :=
        m.m_desired_horizontal_move_direction * m.m_move_speed * m.m_move_speed_ratio * delta_time +
        (Vector3.UNIT_Z : Vector3 F) * m.m_vertical_move_speed * delta_time }
  else
    { m with
      m_desired_displacement :=
        m.m_desired_horizontal_move_direction * m.m_move_speed * m.m_jump_horizontal_speed_ratio
            * delta_time +
        (Vector3.UNIT_Z : Vector3 F) * m.m_vertical_move_speed * delta_time }

/-- The `switch` of `MotorComponent::setTargetPosition`: the position handed on
by the controller dispatch, `none` when a null controller would be dereferenced. -/
def dispatchPosition (move : CharacterController F → Vector3 F → Vector3 F → Vector3 F)
    (m : MotorComponent F) (current_position : Vector3 F) : Option (Vector3 F) :=
  match m.m_motor_res.m_controller_type with
  | ControllerType.none => some (current_position + m.m_desired_displacement)
  | ControllerType.physics =>
    match m.m_controller with
    | some controller => some (move controller current_position m.m_desired_displacement)
    | none => none
  | ControllerType.invalid => some current_position

/-- `MotorComponent::setTargetPosition`: the dispatch, then the ground snap. -/
def setTargetPosition (move : CharacterController F → Vector3 F → Vector3 F → Vector3 F)
    (m : MotorComponent F) (current_position : Vector3 F) : Option (MotorComponent F) :=
  match dispatchPosition move m current_position with
  | none => none
  | some final_position =>
    if m.m_jump_state = JumpState.falling ∧ m.m_target_position.z ≤ 0 then
      some { m with
        m_jump_state := JumpState.idle
        m_target_position := { final_position with z := 0 } }
    else
      some { m with m_target_position := final_position }

/-- `MotorComponent::tickPlayerMotor`; `command` is the polled game command and
`level` the active level. -/
def tickPlayerMotor (gc : GameCommand) (sqrt : F → F)
    (move : CharacterController F → Vector3 F → Vector3 F → Vector3 F)
    (level : Option (Level F)) (command : Nat) (o : GObject F) (delta_time : F) :
    Option (GObject F) :=
  if command ≥ gc.invalid then some o
  else
    let m := calculatedDesiredMoveSpeed gc sqrt level o.motor command delta_time
    match o.transform with
    | none => none
    | some transform_component =>
      let m := calculatedDesiredMoveDirection gc sqrt m command transform_component.m_rotation
      let m := calculateDesiredDisplacement m delta_time
      match setTargetPosition move m transform_component.m_position with
      | none => none
      | some m =>
        some { motor := m
               transform := some { transform_component with m_position := m.m_target_position } }

/-- `MotorComponent::tick`: gated by the editor-mode flag. -/
def tick (gc : GameCommand) (sqrt : F → F)
    (move : CharacterController F → Vector3 F → Vector3 F → Vector3 F)
    (g_is_editor_mode : Bool) (level : Option (Level F)) (command : Nat)
    (o : GObject F) (delta_time : F) : Option (GObject F) :=
  if o.motor.m_tick_in_editor_mode = false ∧ g_is_editor_mode = true then some o
  else tickPlayerMotor gc sqrt move level command o delta_time

/-- The component with its controller type replaced, everything else kept. -/
def withControllerType (m : MotorComponent F) (t : ControllerType) : MotorComponent F :=
  { m with m_motor_res := { m.m_motor_res with m_controller_type := t } }

/-! ## Sequences of ticks -/

/-- What the surroundings supply for one tick: the active level, the polled
command, the facing rotation found in the transform, and the elapsed time. -/
structure TickInput (F : Type) where
  level : Option (Level F)
  command : Nat
  rotation : Quaternion F
  delta_time : F

/-- The object with the rotation of its transform component (if any) set. -/
def GObject.face (o : GObject F) (q : Quaternion F) : GObject F :=
  { o with transform := o.transform.map (fun t => { t with m_rotation := q }) }

/-- One frame: the surroundings set the facing rotation, then `tickPlayerMotor` runs. -/
def frame (gc : GameCommand) (sqrt : F → F)
    (move : CharacterController F → Vector3 F → Vector3 F → Vector3 F)
    (o : GObject F) (i : TickInput F) : Option (GObject F) :=
  tickPlayerMotor gc sqrt move i.level i.command (o.face i.rotation) i.delta_time

/-- A sequence of frames, failing as soon as one of them fails. -/
def runTicks (gc : GameCommand) (sqrt : F → F)
    (move : CharacterController F → Vector3 F → Vector3 F → Vector3 F) :
    GObject F → List (TickInput F) → Option (GObject F)
  | o, [] => some o
  | o, i :: rest =>
    match frame gc sqrt move o i with
    | none => none
    | some o' => runTicks gc sqrt move o' rest

/-- No null pointer is dereferenced by a tick: the transform component exists,
and a physics controller kind comes with its controller. -/
def GObject.wellFormed (o : GObject F) : Prop :=
  o.transform ≠ none ∧
  (o.motor.m_motor_res.m_controller_type = ControllerType.physics → o.motor.m_controller ≠ none)

/-! ## Construction -/

/-- Modelled from the spec: the default member initialisers of the component
(declared in the header, which is not under the sources read here): jump state
idle, controller kind none, a null controller, a null configuration pointer,
and zero for every scalar and vector. -/
def MotorComponent.initial (F : Type) [Zero F] : Pilot.MotorComponent F :=
  { m_tick_in_editor_mode := false
    m_motor_res :=
      { m_move_speed := 0, m_jump_height := 0, m_controller_type := ControllerType.none,
        m_controller_config := { m_type_name := "", m_instance := none } }
    m_move_speed := 0
    m_move_speed_ratio := 0
    m_vertical_move_speed := 0
    m_jump_horizontal_speed_ratio := 0
    m_desired_displacement := Vector3.ZERO
    m_desired_horizontal_move_direction := Vector3.ZERO
    m_target_position := Vector3.ZERO
    m_jump_state := JumpState.idle
    m_controller := none }

/-- The constructor `MotorComponent::MotorComponent`. The `static_cast` of the
configuration pointer is modelled as failure when the pointer is null or points
to an object that is not a physics configuration. -/
def MotorComponent.MotorComponent (motor_param : MotorRes F) : Option (Pilot.MotorComponent F) :=
  let m : Pilot.MotorComponent F :=
    { MotorComponent.initial F with m_move_speed := motor_param.m_move_speed }
  let m : Pilot.MotorComponent F :=
    { m with m_motor_res := { m.m_motor_res with
        m_move_speed := motor_param.m_move_speed
        m_jump_height := motor_param.m_jump_height } }
  if motor_param.m_controller_config.m_type_name = "PhysicsControllerConfig" then
    match motor_param.m_controller_config.m_instance with
    | some (ControllerConfig.physicsControllerConfig m_capsule_shape) =>
      some { m with
        m_motor_res := { m.m_motor_res with
          m_controller_config := { m.m_motor_res.m_controller_config with
            m_instance := some (ControllerConfig.physicsControllerConfig m_capsule_shape) }
          m_controller_type := ControllerType.physics }
        m_controller := some { m_capsule := m_capsule_shape } }
    | _ => none
  else if motor_param.m_controller_config.m_instance ≠ none then
    some { m with m_motor_res := { m.m_motor_res with
      m_controller_type := ControllerType.invalid } }
  else some m

/-- The motor state handed to `calculateDesiredDisplacement` by a tick with a
recognised command: the speed update, then the direction update. -/
def atDisplacement (gc : GameCommand) (sqrt : F → F) (level : Option (Level F))
    (m : MotorComponent F) (command : Nat) (delta_time : F) (object_rotation : Quaternion F) :
    MotorComponent F :=
  calculatedDesiredMoveDirection gc sqrt
    (calculatedDesiredMoveSpeed gc sqrt level m command delta_time) command object_rotation

/-- The sign of the vertical speed agrees with the jump phase: not positive
when falling, not negative when rising. -/
def MotorComponent.signAgrees (m : Pilot.MotorComponent F) : Prop :=
  (m.m_jump_state = JumpState.falling → m.m_vertical_move_speed ≤ 0) ∧
  (m.m_jump_state = JumpState.rising → 0 ≤ m.m_vertical_move_speed)

end Functions

/-! ## A model of binary32 arithmetic -/

/-- A finite binary32 value `mantissa * 2 ^ exponent`, kept in lowest terms: the
mantissa is odd, or the value is `⟨0, 0⟩`. Infinities, NaN and the sign of zero
are not modelled. -/
structure Float32 where
  mantissa : ℤ
  exponent : ℤ
deriving DecidableEq

namespace Float32

/-- The power `2 ^ k` for `k ≥ 0` (and 1 for negative `k`). -/
def pow2 (k : ℤ) : ℤ := ((2 ^ k.toNat : ℕ) : ℤ)

/-- The worker of `log2`, by recursion on a bound. -/
def log2Aux : ℕ → ℕ → ℕ
  | 0, _ => 0
  | fuel + 1, n => if n < 2 then 0 else log2Aux fuel (n / 2) + 1

/-- The position of the highest set bit: `floor (log2 n)` for `n > 0`. -/
def log2 (n : ℕ) : ℕ := log2Aux n n

/-- The value `m * 2 ^ e` in lowest terms. -/
def normalize (m e : ℤ) : Float32 :=
  if m = 0 then ⟨0, 0⟩
  else
    let low : ℕ := Nat.gcd m.natAbs (2 ^ log2 m.natAbs)
    ⟨Int.ediv m (low : ℤ), e + (log2 low : ℤ)⟩

/-- The integer nearest to `n / d` for `d > 0`, ties going to the even one. -/
def roundHalfEven (n : ℤ) (d : ℤ) : ℤ :=
  let f := Int.ediv n d
  let r := Int.emod n d
  if 2 * r < d then f
  else if d < 2 * r then f + 1
  else if Int.emod f 2 = 0 then f else f + 1

/-- The exponent of the leading bit of `n / d`: `floor (log2 (n / d))` for
positive `n` and `d`. -/
def floorLog2 (n d : ℕ) : ℤ :=
  let e0 : ℤ := (log2 n : ℤ) - (log2 d : ℤ)
  if 0 ≤ e0 then (if (n : ℤ) < (d : ℤ) * pow2 e0 then e0 - 1 else e0)
  else (if (n : ℤ) * pow2 (-e0) < (d : ℤ) then e0 - 1 else e0)

/-- Rounding of the exact value `(n / d) * 2 ^ s` to binary32: 24 significant
bits, or a multiple of `2 ^ (-149)` in the subnormal range, to nearest with ties
to even. Overflow is not modelled. -/
def roundFrac (n : ℤ) (d : ℕ) (s : ℤ) : Float32 :=
  if n = 0 then ⟨0, 0⟩
  else
    let l : ℤ := floorLog2 n.natAbs d + s
    let e : ℤ := if -149 ≤ l - 23 then l - 23 else -149
    let k : ℤ := s - e
    let m : ℤ :=
      if 0 ≤ k then roundHalfEven (n * pow2 k) d else roundHalfEven n (d * pow2 (-k))
    normalize m e

/-- The smaller of the two exponents. -/
def lowExponent (a b : Float32) : ℤ := if a.exponent ≤ b.exponent then a.exponent else b.exponent

/-- The mantissa of `a` when written with the exponent `e ≤ a.exponent`. -/
def aligned (a : Float32) (e : ℤ) : ℤ := a.mantissa * pow2 (a.exponent - e)

instance : Zero Float32 := ⟨⟨0, 0⟩⟩

instance : One Float32 := ⟨⟨1, 0⟩⟩

instance : OfNat Float32 2 := ⟨⟨1, 1⟩⟩

instance : Neg Float32 := ⟨fun a => ⟨-a.mantissa, a.exponent⟩⟩

instance : Add Float32 :=
  ⟨fun a b => roundFrac (aligned a (lowExponent a b) + aligned b (lowExponent a b)) 1
    (lowExponent a b)⟩

instance : Sub Float32 :=
  ⟨fun a b => roundFrac (aligned a (lowExponent a b) - aligned b (lowExponent a b)) 1
    (lowExponent a b)⟩

instance : Mul Float32 :=
  ⟨fun a b => roundFrac (a.mantissa * b.mantissa) 1 (a.exponent + b.exponent)⟩

instance : Div Float32 :=
  ⟨fun a b =>
    if b.mantissa = 0 then ⟨0, 0⟩
    else roundFrac (if 0 < b.mantissa then a.mantissa else -a.mantissa) b.mantissa.natAbs
      (a.exponent - b.exponent)⟩

instance : LE Float32 :=
  ⟨fun a b => aligned a (lowExponent a b) ≤ aligned b (lowExponent a b)⟩

instance (a b : Float32) : Decidable (a ≤ b) :=
  inferInstanceAs (Decidable (aligned a (lowExponent a b) ≤ aligned b (lowExponent a b)))

/-- The worker of `isqrt`: the bits of the root, from the highest down. -/
def isqrtAux : ℕ → ℕ → ℕ → ℕ
  | 0, n, r => if (r + 1) ^ 2 ≤ n then r + 1 else r
  | i + 1, n, r => isqrtAux i n (if (r + 2 ^ (i + 1)) ^ 2 ≤ n then r + 2 ^ (i + 1) else r)

/-- The integer square root `floor (sqrt n)`. -/
def isqrt (n : ℕ) : ℕ := isqrtAux (log2 n / 2 + 1) n 0

/-- The correctly rounded square root, as `std::sqrt` computes on binary32; 0 for
arguments that are not positive. -/
def sqrt (x : Float32) : Float32 :=
  if x.mantissa ≤ 0 then ⟨0, 0⟩
  else
    let l : ℤ := (log2 x.mantissa.natAbs : ℤ) + x.exponent
    let e : ℤ := if -149 ≤ Int.ediv l 2 - 23 then Int.ediv l 2 - 23 else -149
    let k : ℤ := x.exponent - 2 * e
    let yn : ℕ := if 0 ≤ k then x.mantissa.natAbs * 2 ^ k.toNat else x.mantissa.natAbs
    let yd : ℕ := if 0 ≤ k then 1 else 2 ^ (-k).toNat
    let m0 : ℕ := isqrt (yn / yd)
    let m : ℕ :=
      if (2 * m0 + 1) ^ 2 * yd < 4 * yn then m0 + 1
      else if (2 * m0 + 1) ^ 2 * yd = 4 * yn then (if m0 % 2 = 0 then m0 else m0 + 1)
      else m0
    normalize (m : ℤ) e

end Float32

/-! ## Sample data -/

/-- A sample assignment of the command masks: distinct single bits, the
sentinel above all of them. -/
def sampleCommand : GameCommand :=
  { forward := 1, backward := 2, left := 4, right := 8, jump := 16, sprint := 64,
    invalid := 2147483648 }

/-- A sample component at rest: move speed 5, jump height 2, no controller. -/
def sampleMotor (F : Type) [LinearOrderedField F] : MotorComponent F :=
  { m_tick_in_editor_mode := false
    m_motor_res :=
      { m_move_speed := 5, m_jump_height := 2, m_controller_type := ControllerType.none,
        m_controller_config := { m_type_name := "", m_instance := none } }
    m_move_speed := 5
    m_move_speed_ratio := 0
    m_vertical_move_speed := 0
    m_jump_horizontal_speed_ratio := 0
    m_desired_displacement := Vector3.ZERO
    m_desired_horizontal_move_direction := Vector3.ZERO
    m_target_position := Vector3.ZERO
    m_jump_state := JumpState.idle
    m_controller := none }

/-- A sample object in mid-jump: rising with vertical speed 20 at height 5,
heading along the canonical forward axis with latched ratio 1. -/
def sampleAirborne (F : Type) [LinearOrderedField F] : GObject F :=
  { motor :=
      { sampleMotor F with
        m_jump_state := JumpState.rising
        m_vertical_move_speed := 20
        m_jump_horizontal_speed_ratio := 1
        m_desired_horizontal_move_direction := Vector3.NEGATIVE_UNIT_Y }
    transform := some { m_position := ⟨0, 0, 5⟩, m_rotation := Quaternion.IDENTITY } }

/-- A controller backend for the samples: it blocks every move. -/
def sampleMove {F : Type} (_c : CharacterController F) (position _displacement : Vector3 F) :
    Vector3 F := position

/-- A sample object at rest at the origin, facing the identity rotation. -/
def sampleGrounded (F : Type) [LinearOrderedField F] : GObject F :=
  { motor := sampleMotor F
    transform := some { m_position := ⟨0, 0, 0⟩, m_rotation := Quaternion.IDENTITY } }

/-- A sample object falling through the ground plane: falling with vertical
speed -1, stored target at the origin. -/
def sampleFalling (F : Type) [LinearOrderedField F] : GObject F :=
  { motor :=
      { sampleMotor F with
        m_jump_state := JumpState.falling
        m_vertical_move_speed := -1
        m_jump_horizontal_speed_ratio := 1 }
    transform := some { m_position := ⟨0, 0, 0⟩, m_rotation := Quaternion.IDENTITY } }

/-- A sample object rising with vertical speed 1 while its stored target is
still on the ground plane. -/
def sampleLiftOff (F : Type) [LinearOrderedField F] : GObject F :=
  { motor :=
      { sampleMotor F with
        m_jump_state := JumpState.rising
        m_vertical_move_speed := 1
        m_jump_horizontal_speed_ratio := 1 }
    transform := some { m_position := ⟨0, 0, 0⟩, m_rotation := Quaternion.IDENTITY } }

/-- A sample object at rest at the origin whose jump height is 0. -/
def sampleFlat (F : Type) [LinearOrderedField F] : GObject F :=
  { motor :=
      { sampleMotor F with
        m_motor_res := { (sampleMotor F).m_motor_res with m_jump_height := 0 } }
    transform := some { m_position := ⟨0, 0, 0⟩, m_rotation := Quaternion.IDENTITY } }

/-! ## Theorems -/

section Theorems

variable {F : Type} [LinearOrderedField F]

/-! ### Coordinates of the vector operations -/

theorem Vector3.add_eq (a b : Vector3 F) : a + b = ⟨a.x + b.x, a.y + b.y, a.z + b.z⟩ := rfl

theorem Vector3.sub_eq (a b : Vector3 F) : a - b = ⟨a.x - b.x, a.y - b.y, a.z - b.z⟩ := rfl

theorem Vector3.scale_eq (a : Vector3 F) (s : F) : a * s = ⟨a.x * s, a.y * s, a.z * s⟩ := rfl

/-! ### What each member function leaves alone -/

/-- The speed update touches only the speed ratio, the vertical speed, the
latched ratio and the jump state. -/
theorem calculatedDesiredMoveSpeed_frame (gc : GameCommand) (sqrt : F → F)
    (level : Option (Level F)) (m : MotorComponent F) (command : Nat) (delta_time : F) :
    (calculatedDesiredMoveSpeed gc sqrt level m command delta_time).m_motor_res = m.m_motor_res ∧
    (calculatedDesiredMoveSpeed gc sqrt level m command delta_time).m_controller
      = m.m_controller ∧
    (calculatedDesiredMoveSpeed gc sqrt level m command delta_time).m_move_speed
      = m.m_move_speed ∧
    (calculatedDesiredMoveSpeed gc sqrt level m command
      delta_time).m_desired_horizontal_move_direction = m.m_desired_horizontal_move_direction ∧
    (calculatedDesiredMoveSpeed gc sqrt level m command delta_time).m_desired_displacement
      = m.m_desired_displacement ∧
    (calculatedDesiredMoveSpeed gc sqrt level m command delta_time).m_target_position
      = m.m_target_position ∧
    (calculatedDesiredMoveSpeed gc sqrt level m command delta_time).m_tick_in_editor_mode
      = m.m_tick_in_editor_mode := by
  unfold calculatedDesiredMoveSpeed
  cases level with
  | none => simp
  | some l =>
    cases hj : m.m_jump_state with
    | idle => by_cases hb : bitSet gc.jump command = true <;> simp [hj, hb]
    | rising =>
      by_cases hv : m.m_vertical_move_speed - l.m_gravity * delta_time ≤ 0 <;> simp [hj, hv]
    | falling =>
      by_cases hv : m.m_vertical_move_speed - l.m_gravity * delta_time ≤ 0 <;> simp [hj, hv]

/-- The speed update never leaves the air: an airborne state stays airborne. -/
theorem calculatedDesiredMoveSpeed_airborne_stays (gc : GameCommand) (sqrt : F → F)
    (level : Option (Level F)) (m : MotorComponent F) (command : Nat) (delta_time : F)
    (hair : m.m_jump_state ≠ JumpState.idle) :
    (calculatedDesiredMoveSpeed gc sqrt level m command delta_time).m_jump_state
      ≠ JumpState.idle ∧
    (calculatedDesiredMoveSpeed gc sqrt level m command
      delta_time).m_jump_horizontal_speed_ratio = m.m_jump_horizontal_speed_ratio := by
  unfold calculatedDesiredMoveSpeed
  cases level with
  | none => simpa using hair
  | some l =>
    cases hj : m.m_jump_state with
    | idle => exact absurd hj hair
    | rising =>
      by_cases hv : m.m_vertical_move_speed - l.m_gravity * delta_time ≤ 0 <;> simp [hj, hv]
    | falling =>
      by_cases hv : m.m_vertical_move_speed - l.m_gravity * delta_time ≤ 0 <;> simp [hj, hv]

/-- The direction update touches only the horizontal direction, and nothing at
all while airborne. -/
theorem calculatedDesiredMoveDirection_airborne (gc : GameCommand) (sqrt : F → F)
    (m : MotorComponent F) (command : Nat) (q : Quaternion F)
    (hair : m.m_jump_state ≠ JumpState.idle) :
    calculatedDesiredMoveDirection gc sqrt m command q = m := by
  simp [calculatedDesiredMoveDirection, hair]

/-- The direction update keeps every field but the horizontal direction. -/
theorem calculatedDesiredMoveDirection_frame (gc : GameCommand) (sqrt : F → F)
    (m : MotorComponent F) (command : Nat) (q : Quaternion F) :
    (calculatedDesiredMoveDirection gc sqrt m command q).m_motor_res = m.m_motor_res ∧
    (calculatedDesiredMoveDirection gc sqrt m command q).m_controller = m.m_controller ∧
    (calculatedDesiredMoveDirection gc sqrt m command q).m_move_speed = m.m_move_speed ∧
    (calculatedDesiredMoveDirection gc sqrt m command q).m_move_speed_ratio
      = m.m_move_speed_ratio ∧
    (calculatedDesiredMoveDirection gc sqrt m command q).m_vertical_move_speed
      = m.m_vertical_move_speed ∧
    (calculatedDesiredMoveDirection gc sqrt m command q).m_jump_horizontal_speed_ratio
      = m.m_jump_horizontal_speed_ratio ∧
    (calculatedDesiredMoveDirection gc sqrt m command q).m_jump_state = m.m_jump_state ∧
    (calculatedDesiredMoveDirection gc sqrt m command q).m_target_position
      = m.m_target_position := by
  unfold calculatedDesiredMoveDirection
  by_cases h : m.m_jump_state = JumpState.idle <;> simp [h]

/-- The displacement update keeps every field but the desired displacement. -/
theorem calculateDesiredDisplacement_frame (m : MotorComponent F) (delta_time : F) :
    (calculateDesiredDisplacement m delta_time).m_motor_res = m.m_motor_res ∧
    (calculateDesiredDisplacement m delta_time).m_controller = m.m_controller ∧
    (calculateDesiredDisplacement m delta_time).m_move_speed = m.m_move_speed ∧
    (calculateDesiredDisplacement m delta_time).m_move_speed_ratio = m.m_move_speed_ratio ∧
    (calculateDesiredDisplacement m delta_time).m_vertical_move_speed
      = m.m_vertical_move_speed ∧
    (calculateDesiredDisplacement m delta_time).m_jump_horizontal_speed_ratio
      = m.m_jump_horizontal_speed_ratio ∧
    (calculateDesiredDisplacement m delta_time).m_desired_horizontal_move_direction
      = m.m_desired_horizontal_move_direction ∧
    (calculateDesiredDisplacement m delta_time).m_jump_state = m.m_jump_state ∧
    (calculateDesiredDisplacement m delta_time).m_target_position = m.m_target_position := by
  unfold calculateDesiredDisplacement
  by_cases h : m.m_jump_state = JumpState.idle <;> simp [h]

/-- The shape of a successful `setTargetPosition`: only the target position and
the jump state can change. -/
theorem setTargetPosition_frame
    (move : CharacterController F → Vector3 F → Vector3 F → Vector3 F)
    (m m' : MotorComponent F) (current_position : Vector3 F)
    (h : setTargetPosition move m current_position = some m') :
    m'.m_motor_res = m.m_motor_res ∧ m'.m_controller = m.m_controller ∧
    m'.m_move_speed = m.m_move_speed ∧ m'.m_move_speed_ratio = m.m_move_speed_ratio ∧
    m'.m_vertical_move_speed = m.m_vertical_move_speed ∧
    m'.m_jump_horizontal_speed_ratio = m.m_jump_horizontal_speed_ratio ∧
    m'.m_desired_horizontal_move_direction = m.m_desired_horizontal_move_direction ∧
    m'.m_desired_displacement = m.m_desired_displacement := by
  unfold setTargetPosition at h
  cases hd : dispatchPosition move m current_position with
  | none => simp [hd] at h
  | some fp =>
    by_cases hs : m.m_jump_state = JumpState.falling ∧ m.m_target_position.z ≤ 0
    · simp only [hd, if_pos hs, Option.some.injEq] at h
      subst h
      simp
    · simp only [hd, if_neg hs, Option.some.injEq] at h
      subst h
      simp

/-- The jump state after a successful `setTargetPosition`. -/
theorem setTargetPosition_jump_state
    (move : CharacterController F → Vector3 F → Vector3 F → Vector3 F)
    (m m' : MotorComponent F) (current_position : Vector3 F)
    (h : setTargetPosition move m current_position = some m') :
    m'.m_jump_state =
      (if m.m_jump_state = JumpState.falling ∧ m.m_target_position.z ≤ 0 then JumpState.idle
       else m.m_jump_state) := by
  unfold setTargetPosition at h
  cases hd : dispatchPosition move m current_position with
  | none => simp [hd] at h
  | some fp =>
    by_cases hs : m.m_jump_state = JumpState.falling ∧ m.m_target_position.z ≤ 0
    · simp only [hd, if_pos hs, Option.some.injEq] at h
      subst h
      simp only [if_pos hs]
    · simp only [hd, if_neg hs, Option.some.injEq] at h
      subst h
      simp only [if_neg hs]

/-- The dispatch succeeds when a physics controller kind has its controller. -/
theorem setTargetPosition_isSome
    (move : CharacterController F → Vector3 F → Vector3 F → Vector3 F)
    (m : MotorComponent F) (current_position : Vector3 F)
    (hctl : m.m_motor_res.m_controller_type = ControllerType.physics → m.m_controller ≠ none) :
    ∃ m', setTargetPosition move m current_position = some m' := by
  have hd : ∃ fp, dispatchPosition move m current_position = some fp := by
    unfold dispatchPosition
    cases ht : m.m_motor_res.m_controller_type with
    | none => exact ⟨_, rfl⟩
    | invalid => exact ⟨_, rfl⟩
    | physics =>
      cases hc : m.m_controller with
      | none => exact absurd hc (hctl ht)
      | some c => exact ⟨_, rfl⟩
  obtain ⟨fp, hfp⟩ := hd
  unfold setTargetPosition
  by_cases hs : m.m_jump_state = JumpState.falling ∧ m.m_target_position.z ≤ 0
  · simp only [hfp, if_pos hs]
    exact ⟨_, rfl⟩
  · simp only [hfp, if_neg hs]
    exact ⟨_, rfl⟩

/-! ### Whole ticks -/

/-- A tick with a recognised command and a transform component is the four
steps in a row, followed by the write-back of the target position. -/
theorem tickPlayerMotor_valid (gc : GameCommand) (sqrt : F → F)
    (move : CharacterController F → Vector3 F → Vector3 F → Vector3 F)
    (level : Option (Level F)) (command : Nat) (o : GObject F) (delta_time : F)
    (t : TransformComponent F) (ht : o.transform = some t) (hvalid : command < gc.invalid) :
    tickPlayerMotor gc sqrt move level command o delta_time =
      (setTargetPosition move
        (calculateDesiredDisplacement
          (calculatedDesiredMoveDirection gc sqrt
            (calculatedDesiredMoveSpeed gc sqrt level o.motor command delta_time)
            command t.m_rotation)
          delta_time)
        t.m_position).map
        (fun m => { motor := m, transform := some { t with m_position := m.m_target_position } }) := by
  unfold tickPlayerMotor
  rw [if_neg (not_le.mpr hvalid)]
  simp only [ht]
  cases setTargetPosition move
        (calculateDesiredDisplacement
          (calculatedDesiredMoveDirection gc sqrt
            (calculatedDesiredMoveSpeed gc sqrt level o.motor command delta_time)
            command t.m_rotation)
          delta_time)
        t.m_position <;> rfl

/-- The jump state after a successful tick with a recognised command: the state
left by the speed update, reset to idle by the ground snap when that state is
falling and the target stored before the tick has z `≤ 0`. -/
theorem tickPlayerMotor_jump_state (gc : GameCommand) (sqrt : F → F)
    (move : CharacterController F → Vector3 F → Vector3 F → Vector3 F)
    (level : Option (Level F)) (command : Nat) (o o' : GObject F) (delta_time : F)
    (hvalid : command < gc.invalid)
    (h : tickPlayerMotor gc sqrt move level command o delta_time = some o') :
    o'.motor.m_jump_state =
      (if (calculatedDesiredMoveSpeed gc sqrt level o.motor command delta_time).m_jump_state
            = JumpState.falling ∧ o.motor.m_target_position.z ≤ 0
       then JumpState.idle
       else (calculatedDesiredMoveSpeed gc sqrt level o.motor command delta_time).m_jump_state) := by
  cases ht : o.transform with
  | none =>
    unfold tickPlayerMotor at h
    rw [if_neg (not_le.mpr hvalid)] at h
    simp [ht] at h
  | some t =>
    rw [tickPlayerMotor_valid gc sqrt move level command o delta_time t ht hvalid] at h
    cases hset : setTargetPosition move
        (calculateDesiredDisplacement
          (calculatedDesiredMoveDirection gc sqrt
            (calculatedDesiredMoveSpeed gc sqrt level o.motor command delta_time)
            command t.m_rotation)
          delta_time)
        t.m_position with
    | none => simp [hset] at h
    | some m' =>
      rw [hset] at h
      simp only [Option.map_some', Option.some.injEq] at h
      subst h
      have hj := setTargetPosition_jump_state move _ m' _ hset
      have hs := calculatedDesiredMoveSpeed_frame gc sqrt level o.motor command delta_time
      have hd := calculatedDesiredMoveDirection_frame gc sqrt
        (calculatedDesiredMoveSpeed gc sqrt level o.motor command delta_time) command t.m_rotation
      have hp := calculateDesiredDisplacement_frame
        (calculatedDesiredMoveDirection gc sqrt
          (calculatedDesiredMoveSpeed gc sqrt level o.motor command delta_time)
          command t.m_rotation) delta_time
      have hjs := hp.2.2.2.2.2.2.2.1.trans hd.2.2.2.2.2.2.1
      have htp := hp.2.2.2.2.2.2.2.2.trans (hd.2.2.2.2.2.2.2.trans hs.2.2.2.2.2.1)
      rw [hjs, htp] at hj
      exact hj

/-- Setting the facing rotation keeps the motor and well-formedness. -/
theorem GObject.face_wellFormed (o : GObject F) (q : Quaternion F) (h : o.wellFormed) :
    (o.face q).wellFormed ∧ (o.face q).motor = o.motor := by
  refine ⟨⟨?_, h.2⟩, rfl⟩
  cases ht : o.transform with
  | none => exact absurd ht h.1
  | some t => simp [GObject.face, ht]

/-- A tick on a well-formed object succeeds and leaves a well-formed object with
the same configuration, controller and move speed. -/
theorem tickPlayerMotor_wellFormed (gc : GameCommand) (sqrt : F → F)
    (move : CharacterController F → Vector3 F → Vector3 F → Vector3 F)
    (level : Option (Level F)) (command : Nat) (o : GObject F) (delta_time : F)
    (h : o.wellFormed) :
    ∃ o', tickPlayerMotor gc sqrt move level command o delta_time = some o' ∧ o'.wellFormed ∧
      o'.motor.m_motor_res = o.motor.m_motor_res ∧ o'.motor.m_controller = o.motor.m_controller ∧
      o'.motor.m_move_speed = o.motor.m_move_speed := by
  by_cases hv : command < gc.invalid
  · cases ht : o.transform with
    | none => exact absurd ht h.1
    | some t =>
      have hs := calculatedDesiredMoveSpeed_frame gc sqrt level o.motor command delta_time
      have hd := calculatedDesiredMoveDirection_frame gc sqrt
        (calculatedDesiredMoveSpeed gc sqrt level o.motor command delta_time) command t.m_rotation
      have hp := calculateDesiredDisplacement_frame
        (calculatedDesiredMoveDirection gc sqrt
          (calculatedDesiredMoveSpeed gc sqrt level o.motor command delta_time)
          command t.m_rotation) delta_time
      have hres := hp.1.trans (hd.1.trans hs.1)
      have hctl := hp.2.1.trans (hd.2.1.trans hs.2.1)
      have hspd := hp.2.2.1.trans (hd.2.2.1.trans hs.2.2.1)
      obtain ⟨m', hm'⟩ := setTargetPosition_isSome move
        (calculateDesiredDisplacement
          (calculatedDesiredMoveDirection gc sqrt
            (calculatedDesiredMoveSpeed gc sqrt level o.motor command delta_time)
            command t.m_rotation)
          delta_time) t.m_position (by rw [hres, hctl]; exact h.2)
      have hf := setTargetPosition_frame move _ m' _ hm'
      refine ⟨{ motor := m', transform := some { t with m_position := m'.m_target_position } },
        ?_, ⟨by simp, ?_⟩, hf.1.trans hres, hf.2.1.trans hctl, hf.2.2.1.trans hspd⟩
      · rw [tickPlayerMotor_valid gc sqrt move level command o delta_time t ht hv, hm']
        rfl
      · show m'.m_motor_res.m_controller_type = ControllerType.physics → m'.m_controller ≠ none
        rw [hf.1.trans hres, hf.2.1.trans hctl]
        exact h.2
  · refine ⟨o, ?_, h, rfl, rfl, rfl⟩
    unfold tickPlayerMotor
    rw [if_pos (not_lt.mp hv)]

/-- A tick that starts airborne with a recognised command succeeds, keeps the
horizontal direction, the latched ratio and the move speed, and computes the
displacement from them. -/
theorem tickPlayerMotor_airborne_step (gc : GameCommand) (sqrt : F → F)
    (move : CharacterController F → Vector3 F → Vector3 F → Vector3 F)
    (level : Option (Level F)) (command : Nat) (o : GObject F) (delta_time : F)
    (h : o.wellFormed) (hvalid : command < gc.invalid)
    (hair : o.motor.m_jump_state ≠ JumpState.idle) :
    ∃ o', tickPlayerMotor gc sqrt move level command o delta_time = some o' ∧ o'.wellFormed ∧
      o'.motor.m_move_speed = o.motor.m_move_speed ∧
      o'.motor.m_desired_horizontal_move_direction
        = o.motor.m_desired_horizontal_move_direction ∧
      o'.motor.m_jump_horizontal_speed_ratio = o.motor.m_jump_horizontal_speed_ratio ∧
      o'.motor.m_desired_displacement =
        o.motor.m_desired_horizontal_move_direction * o.motor.m_move_speed
            * o.motor.m_jump_horizontal_speed_ratio * delta_time +
        (Vector3.UNIT_Z : Vector3 F) * o'.motor.m_vertical_move_speed * delta_time := by
  obtain ⟨o', ho', hwf, -, -, hspd⟩ :=
    tickPlayerMotor_wellFormed gc sqrt move level command o delta_time h
  refine ⟨o', ho', hwf, hspd, ?_⟩
  cases ht : o.transform with
  | none => exact absurd ht h.1
  | some t =>
    rw [tickPlayerMotor_valid gc sqrt move level command o delta_time t ht hvalid] at ho'
    have hs := calculatedDesiredMoveSpeed_frame gc sqrt level o.motor command delta_time
    have ha := calculatedDesiredMoveSpeed_airborne_stays gc sqrt level o.motor command
      delta_time hair
    rw [calculatedDesiredMoveDirection_airborne gc sqrt _ command t.m_rotation ha.1] at ho'
    cases hset : setTargetPosition move
        (calculateDesiredDisplacement
          (calculatedDesiredMoveSpeed gc sqrt level o.motor command delta_time) delta_time)
        t.m_position with
    | none => simp [hset] at ho'
    | some m' =>
      rw [hset] at ho'
      simp only [Option.map_some', Option.some.injEq] at ho'
      subst ho'
      have hf := setTargetPosition_frame move _ m' _ hset
      have hp := calculateDesiredDisplacement_frame
        (calculatedDesiredMoveSpeed gc sqrt level o.motor command delta_time) delta_time
      refine ⟨?_, ?_, ?_⟩
      · exact hf.2.2.2.2.2.2.1.trans (hp.2.2.2.2.2.2.1.trans hs.2.2.2.1)
      · exact hf.2.2.2.2.2.1.trans (hp.2.2.2.2.2.1.trans ha.2)
      · show m'.m_desired_displacement = _
        rw [hf.2.2.2.2.2.2.2, hf.2.2.2.2.1, hp.2.2.2.2.1]
        unfold calculateDesiredDisplacement
        rw [if_neg ha.1]
        simp only [hs.2.2.1, hs.2.2.2.1, ha.2]

/-- The identity rotation fixes every vector. -/
theorem Quaternion.rotate_identity (v : Vector3 F) :
    (Quaternion.IDENTITY : Quaternion F).rotate v = v := by
  obtain ⟨x, y, z⟩ := v
  simp [Quaternion.rotate, Quaternion.IDENTITY, Vector3.crossProduct, Vector3.add_eq,
    Vector3.scale_eq]

/-- Normalising the canonical forward axis returns it, for a square root with
`sqrt 1 = 1`. -/
theorem Vector3.normalise_negative_unit_y (sqrt : F → F) (hsqrt : sqrt 1 = 1) :
    (Vector3.NEGATIVE_UNIT_Y : Vector3 F).normalise sqrt = Vector3.NEGATIVE_UNIT_Y := by
  simp [Vector3.normalise, Vector3.NEGATIVE_UNIT_Y, hsqrt]

/-- A grounded tick with only the forward bit, facing the identity rotation,
with no controller: the object moves by `move speed * elapsed time` along the
canonical forward axis, which is the negative y axis, and stays idle. -/
theorem tickPlayerMotor_forward_only (gc : GameCommand) (sqrt : F → F)
    (move : CharacterController F → Vector3 F → Vector3 F → Vector3 F)
    (level : Option (Level F)) (command : Nat) (m : MotorComponent F) (p : Vector3 F)
    (delta_time : F)
    (hsqrt : sqrt 1 = 1) (hvalid : command < gc.invalid)
    (hf : bitSet gc.forward command = true) (hb : bitSet gc.backward command = false)
    (hl : bitSet gc.left command = false) (hr : bitSet gc.right command = false)
    (hj : bitSet gc.jump command = false) (hs : bitSet gc.sprint command = false)
    (hidle : m.m_jump_state = JumpState.idle) (hv : m.m_vertical_move_speed = 0)
    (hnone : m.m_motor_res.m_controller_type = ControllerType.none) :
    ∃ o', tickPlayerMotor gc sqrt move level command
        { motor := m, transform := some { m_position := p, m_rotation := Quaternion.IDENTITY } }
        delta_time = some o' ∧
      o'.motor.m_jump_state = JumpState.idle ∧
      o'.motor.m_target_position = ⟨p.x, p.y - m.m_move_speed * delta_time, p.z⟩ ∧
      o'.transform = some { m_position := ⟨p.x, p.y - m.m_move_speed * delta_time, p.z⟩,
                            m_rotation := Quaternion.IDENTITY } := by
  have hspeed : calculatedDesiredMoveSpeed gc sqrt level m command delta_time
      = { m with m_move_speed_ratio := 1 } := by
    obtain ⟨a1, a2, a3, a4, a5, a6, a7, a8, a9, a10, a11⟩ := m
    simp only at hidle hv
    subst hidle hv
    cases level <;> simp [calculatedDesiredMoveSpeed, hj, hs]
  have hdir : calculatedDesiredMoveDirection gc sqrt { m with m_move_speed_ratio := 1 } command
      (Quaternion.IDENTITY : Quaternion F)
      = { m with m_move_speed_ratio := 1
                 m_desired_horizontal_move_direction := Vector3.NEGATIVE_UNIT_Y } := by
    have hz : (Vector3.ZERO : Vector3 F) + Vector3.NEGATIVE_UNIT_Y = Vector3.NEGATIVE_UNIT_Y := by
      simp [Vector3.add_eq, Vector3.ZERO, Vector3.NEGATIVE_UNIT_Y]
    simp [calculatedDesiredMoveDirection, hidle, hf, hb, hl, hr, Quaternion.rotate_identity, hz,
      Vector3.normalise_negative_unit_y sqrt hsqrt]
  rw [tickPlayerMotor_valid gc sqrt move level command _ delta_time
    { m_position := p, m_rotation := Quaternion.IDENTITY } rfl hvalid]
  simp only [hspeed, hdir]
  generalize hmD : calculateDesiredDisplacement
    { m with m_move_speed_ratio := 1
             m_desired_horizontal_move_direction := Vector3.NEGATIVE_UNIT_Y } delta_time = mD
  have hp := calculateDesiredDisplacement_frame
    { m with m_move_speed_ratio := 1
             m_desired_horizontal_move_direction := Vector3.NEGATIVE_UNIT_Y } delta_time
  rw [hmD] at hp
  have hjs : mD.m_jump_state = JumpState.idle := hp.2.2.2.2.2.2.2.1.trans hidle
  have hct : mD.m_motor_res.m_controller_type = ControllerType.none := by
    rw [hp.1]; exact hnone
  have hdisp : mD.m_desired_displacement = ⟨0, -(m.m_move_speed * delta_time), 0⟩ := by
    rw [← hmD]
    simp [calculateDesiredDisplacement, hidle, Vector3.add_eq, Vector3.scale_eq,
      Vector3.NEGATIVE_UNIT_Y, Vector3.UNIT_Z, hv]
  have hset : setTargetPosition move mD p
      = some { mD with m_target_position := p + mD.m_desired_displacement } := by
    simp [setTargetPosition, dispatchPosition, hct, hjs]
  have hpos : p + mD.m_desired_displacement = ⟨p.x, p.y - m.m_move_speed * delta_time, p.z⟩ := by
    rw [hdisp]
    simp [Vector3.add_eq, sub_eq_add_neg]
  rw [hset, hpos]
  exact ⟨_, rfl, hjs, rfl, rfl⟩

/-- Adding a vector to zero and taking it away again leaves zero. -/
theorem Vector3.zero_add_sub (v : Vector3 F) : (Vector3.ZERO + v) - v = Vector3.ZERO := by
  simp [Vector3.add_eq, Vector3.sub_eq, Vector3.ZERO]

/-- Adding a vector and taking it away again changes nothing. -/
theorem Vector3.add_sub_same (u v : Vector3 F) : (u + v) - v = u := by
  simp [Vector3.add_eq, Vector3.sub_eq]

/-- Normalising the zero vector gives the zero vector, whatever `sqrt 0` is. -/
theorem Vector3.normalise_zero (sqrt : F → F) :
    (Vector3.ZERO : Vector3 F).normalise sqrt = Vector3.ZERO := by
  unfold Vector3.normalise
  by_cases h : sqrt ((Vector3.ZERO : Vector3 F).x * (Vector3.ZERO : Vector3 F).x
      + (Vector3.ZERO : Vector3 F).y * (Vector3.ZERO : Vector3 F).y
      + (Vector3.ZERO : Vector3 F).z * (Vector3.ZERO : Vector3 F).z) = 0
  · simp only [h, if_true]
  · simp only [h, if_false]
    simp [Vector3.ZERO]

/-! ### The speed update, case by case -/

/-- Launch: idle, jump bit set, level present. -/
theorem calculatedDesiredMoveSpeed_launch (gc : GameCommand) (sqrt : F → F) (level : Level F)
    (m : MotorComponent F) (command : Nat) (delta_time : F)
    (hidle : m.m_jump_state = JumpState.idle) (hjump : bitSet gc.jump command = true) :
    (calculatedDesiredMoveSpeed gc sqrt (some level) m command delta_time).m_jump_state
      = JumpState.rising ∧
    (calculatedDesiredMoveSpeed gc sqrt (some level) m command delta_time).m_vertical_move_speed
      = sqrt (m.m_motor_res.m_jump_height * 2 * level.m_gravity) ∧
    (calculatedDesiredMoveSpeed gc sqrt (some level) m command
      delta_time).m_jump_horizontal_speed_ratio = (if bitSet gc.sprint command then 2 else 1) := by
  simp [calculatedDesiredMoveSpeed, hidle, hjump]

/-- Staying on the ground: idle, jump bit clear, level present. -/
theorem calculatedDesiredMoveSpeed_rest (gc : GameCommand) (sqrt : F → F) (level : Level F)
    (m : MotorComponent F) (command : Nat) (delta_time : F)
    (hidle : m.m_jump_state = JumpState.idle) (hjump : bitSet gc.jump command = false) :
    (calculatedDesiredMoveSpeed gc sqrt (some level) m command delta_time).m_jump_state
      = JumpState.idle ∧
    (calculatedDesiredMoveSpeed gc sqrt (some level) m command delta_time).m_vertical_move_speed
      = 0 ∧
    (calculatedDesiredMoveSpeed gc sqrt (some level) m command
      delta_time).m_jump_horizontal_speed_ratio = m.m_jump_horizontal_speed_ratio := by
  simp [calculatedDesiredMoveSpeed, hidle, hjump]

/-- In the air: rising or falling, level present. -/
theorem calculatedDesiredMoveSpeed_air (gc : GameCommand) (sqrt : F → F) (level : Level F)
    (m : MotorComponent F) (command : Nat) (delta_time : F)
    (hair : m.m_jump_state ≠ JumpState.idle) :
    (calculatedDesiredMoveSpeed gc sqrt (some level) m command delta_time).m_vertical_move_speed
      = m.m_vertical_move_speed - level.m_gravity * delta_time ∧
    (calculatedDesiredMoveSpeed gc sqrt (some level) m command delta_time).m_jump_state
      = (if m.m_vertical_move_speed - level.m_gravity * delta_time ≤ 0 then JumpState.falling
         else m.m_jump_state) := by
  cases hj : m.m_jump_state with
  | idle => exact absurd hj hair
  | rising =>
    by_cases hv : m.m_vertical_move_speed - level.m_gravity * delta_time ≤ 0 <;>
      simp [calculatedDesiredMoveSpeed, hj, hv]
  | falling =>
    by_cases hv : m.m_vertical_move_speed - level.m_gravity * delta_time ≤ 0 <;>
      simp [calculatedDesiredMoveSpeed, hj, hv]

/-- Without a level nothing but the speed ratio is assigned. -/
theorem calculatedDesiredMoveSpeed_skip (gc : GameCommand) (sqrt : F → F)
    (m : MotorComponent F) (command : Nat) (delta_time : F) :
    calculatedDesiredMoveSpeed gc sqrt none m command delta_time
      = { m with m_move_speed_ratio := if bitSet gc.sprint command then 2 else 1 } := rfl

/-- The displacement computed by `calculateDesiredDisplacement`. -/
theorem calculateDesiredDisplacement_value (m : MotorComponent F) (delta_time : F) :
    (calculateDesiredDisplacement m delta_time).m_desired_displacement =
      m.m_desired_horizontal_move_direction * m.m_move_speed
        * (if m.m_jump_state = JumpState.idle then m.m_move_speed_ratio
           else m.m_jump_horizontal_speed_ratio) * delta_time +
      (Vector3.UNIT_Z : Vector3 F) * m.m_vertical_move_speed * delta_time := by
  unfold calculateDesiredDisplacement
  by_cases h : m.m_jump_state = JumpState.idle
  · simp only [if_pos h]
  · simp only [if_neg h]

/-- The target position after a successful `setTargetPosition` under the
controller kind none. -/
theorem setTargetPosition_target_of_none
    (move : CharacterController F → Vector3 F → Vector3 F → Vector3 F)
    (m m' : MotorComponent F) (current_position : Vector3 F)
    (hnone : m.m_motor_res.m_controller_type = ControllerType.none)
    (h : setTargetPosition move m current_position = some m') :
    m'.m_target_position =
      (if m.m_jump_state = JumpState.falling ∧ m.m_target_position.z ≤ 0
       then { current_position + m.m_desired_displacement with z := 0 }
       else current_position + m.m_desired_displacement) := by
  unfold setTargetPosition at h
  simp only [dispatchPosition, hnone] at h
  by_cases hs : m.m_jump_state = JumpState.falling ∧ m.m_target_position.z ≤ 0
  · simp only [if_pos hs, Option.some.injEq] at h
    subst h
    simp only [if_pos hs]
  · simp only [if_neg hs, Option.some.injEq] at h
    subst h
    simp only [if_neg hs]

/-- The z of the target after a ground snap is exactly 0, for every controller kind. -/
theorem setTargetPosition_snap_z
    (move : CharacterController F → Vector3 F → Vector3 F → Vector3 F)
    (m m' : MotorComponent F) (current_position : Vector3 F)
    (hs : m.m_jump_state = JumpState.falling ∧ m.m_target_position.z ≤ 0)
    (h : setTargetPosition move m current_position = some m') :
    m'.m_target_position.z = 0 := by
  unfold setTargetPosition at h
  cases hd : dispatchPosition move m current_position with
  | none => simp [hd] at h
  | some fp =>
    simp only [hd, if_pos hs, Option.some.injEq] at h
    subst h
    rfl

/-- What a successful tick with a recognised command leaves behind, field by
field, in terms of the speed update, the state at displacement time and the
final `setTargetPosition`. -/
theorem tickPlayerMotor_fields (gc : GameCommand) (sqrt : F → F)
    (move : CharacterController F → Vector3 F → Vector3 F → Vector3 F)
    (level : Option (Level F)) (command : Nat) (o o' : GObject F) (delta_time : F)
    (hvalid : command < gc.invalid)
    (h : tickPlayerMotor gc sqrt move level command o delta_time = some o') :
    ∃ t, o.transform = some t ∧
      setTargetPosition move
        (calculateDesiredDisplacement
          (atDisplacement gc sqrt level o.motor command delta_time t.m_rotation) delta_time)
        t.m_position = some o'.motor ∧
      o'.transform = some { t with m_position := o'.motor.m_target_position } ∧
      o'.motor.m_vertical_move_speed
        = (calculatedDesiredMoveSpeed gc sqrt level o.motor command
            delta_time).m_vertical_move_speed ∧
      o'.motor.m_move_speed_ratio
        = (calculatedDesiredMoveSpeed gc sqrt level o.motor command delta_time).m_move_speed_ratio ∧
      o'.motor.m_jump_horizontal_speed_ratio
        = (calculatedDesiredMoveSpeed gc sqrt level o.motor command
            delta_time).m_jump_horizontal_speed_ratio ∧
      o'.motor.m_desired_horizontal_move_direction
        = (atDisplacement gc sqrt level o.motor command delta_time
            t.m_rotation).m_desired_horizontal_move_direction ∧
      o'.motor.m_desired_displacement
        = (calculateDesiredDisplacement
            (atDisplacement gc sqrt level o.motor command delta_time t.m_rotation)
            delta_time).m_desired_displacement ∧
      (atDisplacement gc sqrt level o.motor command delta_time t.m_rotation).m_jump_state
        = (calculatedDesiredMoveSpeed gc sqrt level o.motor command delta_time).m_jump_state ∧
      (atDisplacement gc sqrt level o.motor command delta_time t.m_rotation).m_vertical_move_speed
        = (calculatedDesiredMoveSpeed gc sqrt level o.motor command
            delta_time).m_vertical_move_speed ∧
      o'.motor.m_motor_res = o.motor.m_motor_res ∧
      o'.motor.m_move_speed = o.motor.m_move_speed := by
  cases ht : o.transform with
  | none =>
    unfold tickPlayerMotor at h
    rw [if_neg (not_le.mpr hvalid)] at h
    simp [ht] at h
  | some t =>
    rw [tickPlayerMotor_valid gc sqrt move level command o delta_time t ht hvalid] at h
    refine ⟨t, rfl, ?_⟩
    unfold atDisplacement
    cases hset : setTargetPosition move
        (calculateDesiredDisplacement
          (calculatedDesiredMoveDirection gc sqrt
            (calculatedDesiredMoveSpeed gc sqrt level o.motor command delta_time)
            command t.m_rotation)
          delta_time)
        t.m_position with
    | none => simp [hset] at h
    | some m' =>
      rw [hset] at h
      simp only [Option.map_some', Option.some.injEq] at h
      subst h
      have hf := setTargetPosition_frame move _ m' _ hset
      have hs := calculatedDesiredMoveSpeed_frame gc sqrt level o.motor command delta_time
      have hd := calculatedDesiredMoveDirection_frame gc sqrt
        (calculatedDesiredMoveSpeed gc sqrt level o.motor command delta_time) command t.m_rotation
      have hp := calculateDesiredDisplacement_frame
        (calculatedDesiredMoveDirection gc sqrt
          (calculatedDesiredMoveSpeed gc sqrt level o.motor command delta_time)
          command t.m_rotation) delta_time
      refine ⟨rfl, rfl, ?_, ?_, ?_, ?_, ?_, ?_, ?_, ?_, ?_⟩
      · exact hf.2.2.2.2.1.trans (hp.2.2.2.2.1.trans hd.2.2.2.2.1)
      · exact hf.2.2.2.1.trans (hp.2.2.2.1.trans hd.2.2.2.1)
      · exact hf.2.2.2.2.2.1.trans (hp.2.2.2.2.2.1.trans hd.2.2.2.2.2.1)
      · exact hf.2.2.2.2.2.2.1.trans hp.2.2.2.2.2.2.1
      · exact hf.2.2.2.2.2.2.2
      · exact hd.2.2.2.2.2.2.1
      · exact hd.2.2.2.2.1
      · exact hf.1.trans (hp.1.trans (hd.1.trans hs.1))
      · exact hf.2.2.1.trans (hp.2.2.1.trans (hd.2.2.1.trans hs.2.2.1))

/-- The motor handed to `setTargetPosition` in a tick has the jump state left by
the speed update and the target position stored before the tick. -/
theorem calculateDesiredDisplacement_atDisplacement (gc : GameCommand) (sqrt : F → F)
    (level : Option (Level F)) (m : MotorComponent F) (command : Nat) (delta_time : F)
    (q : Quaternion F) :
    (calculateDesiredDisplacement (atDisplacement gc sqrt level m command delta_time q)
        delta_time).m_jump_state
      = (calculatedDesiredMoveSpeed gc sqrt level m command delta_time).m_jump_state ∧
    (calculateDesiredDisplacement (atDisplacement gc sqrt level m command delta_time q)
        delta_time).m_target_position = m.m_target_position ∧
    (calculateDesiredDisplacement (atDisplacement gc sqrt level m command delta_time q)
        delta_time).m_motor_res = m.m_motor_res := by
  have hs := calculatedDesiredMoveSpeed_frame gc sqrt level m command delta_time
  have hd := calculatedDesiredMoveDirection_frame gc sqrt
    (calculatedDesiredMoveSpeed gc sqrt level m command delta_time) command q
  have hp := calculateDesiredDisplacement_frame
    (calculatedDesiredMoveDirection gc sqrt
      (calculatedDesiredMoveSpeed gc sqrt level m command delta_time) command q) delta_time
  unfold atDisplacement
  exact ⟨hp.2.2.2.2.2.2.2.1.trans hd.2.2.2.2.2.2.1,
    hp.2.2.2.2.2.2.2.2.trans (hd.2.2.2.2.2.2.2.trans hs.2.2.2.2.2.1),
    hp.1.trans (hd.1.trans hs.1)⟩

/-- A tick on which the ground snap fires ends idle with the target at z = 0. -/
theorem tickPlayerMotor_snap (gc : GameCommand) (sqrt : F → F)
    (move : CharacterController F → Vector3 F → Vector3 F → Vector3 F)
    (level : Option (Level F)) (command : Nat) (o o' : GObject F) (delta_time : F)
    (hvalid : command < gc.invalid)
    (hsnap : (calculatedDesiredMoveSpeed gc sqrt level o.motor command delta_time).m_jump_state
        = JumpState.falling ∧ o.motor.m_target_position.z ≤ 0)
    (h : tickPlayerMotor gc sqrt move level command o delta_time = some o') :
    o'.motor.m_jump_state = JumpState.idle ∧ o'.motor.m_target_position.z = 0 ∧
    ∃ t', o'.transform = some t' ∧ t'.m_position.z = 0 := by
  have hj := tickPlayerMotor_jump_state gc sqrt move level command o o' delta_time hvalid h
  rw [if_pos hsnap] at hj
  obtain ⟨t, -, hset, htr, -⟩ :=
    tickPlayerMotor_fields gc sqrt move level command o o' delta_time hvalid h
  have ha := calculateDesiredDisplacement_atDisplacement gc sqrt level o.motor command
    delta_time t.m_rotation
  have hz := setTargetPosition_snap_z move _ o'.motor t.m_position
    (by rw [ha.1, ha.2.1]; exact hsnap) hset
  exact ⟨hj, hz, _, htr, hz⟩

/-! ### Lengths -/

/-- The direction resolved while idle is the normalised combination
`a * forward + b * left` with `a` and `b` in {-1, 0, 1} read off the bits. -/
theorem calculatedDesiredMoveDirection_combination (gc : GameCommand) (sqrt : F → F)
    (m : MotorComponent F) (q : Quaternion F) (c : Nat)
    (hidle : m.m_jump_state = JumpState.idle) :
    (calculatedDesiredMoveDirection gc sqrt m c q).m_desired_horizontal_move_direction =
      Vector3.normalise sqrt
        ⟨((if bitSet gc.forward c then 1 else 0) - (if bitSet gc.backward c then 1 else 0))
            * (q.rotate Vector3.NEGATIVE_UNIT_Y).x
          + ((if bitSet gc.left c then 1 else 0) - (if bitSet gc.right c then 1 else 0))
            * (q.rotate Vector3.UNIT_X).x,
         ((if bitSet gc.forward c then 1 else 0) - (if bitSet gc.backward c then 1 else 0))
            * (q.rotate Vector3.NEGATIVE_UNIT_Y).y
          + ((if bitSet gc.left c then 1 else 0) - (if bitSet gc.right c then 1 else 0))
            * (q.rotate Vector3.UNIT_X).y,
         ((if bitSet gc.forward c then 1 else 0) - (if bitSet gc.backward c then 1 else 0))
            * (q.rotate Vector3.NEGATIVE_UNIT_Y).z
          + ((if bitSet gc.left c then 1 else 0) - (if bitSet gc.right c then 1 else 0))
            * (q.rotate Vector3.UNIT_X).z⟩ := by
  simp only [calculatedDesiredMoveDirection, hidle, if_true]
  congr 1
  cases bitSet gc.forward c <;> cases bitSet gc.backward c <;> cases bitSet gc.left c <;>
    cases bitSet gc.right c <;>
    simp [Vector3.add_eq, Vector3.sub_eq, Vector3.ZERO] <;>
    (try ring_nf) <;> (try simp)

/-- Running a concatenation is running the parts one after the other. -/
theorem runTicks_append (gc : GameCommand) (sqrt : F → F)
    (move : CharacterController F → Vector3 F → Vector3 F → Vector3 F)
    (o : GObject F) (xs ys : List (TickInput F)) :
    runTicks gc sqrt move o (xs ++ ys)
      = (runTicks gc sqrt move o xs).bind (fun o' => runTicks gc sqrt move o' ys) := by
  induction xs generalizing o with
  | nil => simp [runTicks]
  | cons i rest ih =>
    simp only [List.cons_append, runTicks]
    cases frame gc sqrt move o i with
    | none => simp
    | some o1 => simpa using ih o1

/-- One frame is one element of a run. -/
theorem runTicks_singleton (gc : GameCommand) (sqrt : F → F)
    (move : CharacterController F → Vector3 F → Vector3 F → Vector3 F)
    (o : GObject F) (i : TickInput F) :
    runTicks gc sqrt move o [i] = frame gc sqrt move o i := by
  simp only [runTicks]
  cases frame gc sqrt move o i <;> rfl

/-- A frame under the controller kind none that is airborne after the speed
update and has no horizontal direction: the motion is purely vertical. -/
theorem frame_none_vertical (gc : GameCommand) (sqrt : F → F)
    (move : CharacterController F → Vector3 F → Vector3 F → Vector3 F)
    (o : GObject F) (i : TickInput F) (p : Vector3 F) (q0 : Quaternion F)
    (ht : o.transform = some { m_position := p, m_rotation := q0 })
    (hnone : o.motor.m_motor_res.m_controller_type = ControllerType.none)
    (hvalid : i.command < gc.invalid)
    (hdir : o.motor.m_desired_horizontal_move_direction = Vector3.ZERO)
    (hair : (calculatedDesiredMoveSpeed gc sqrt i.level o.motor i.command
      i.delta_time).m_jump_state ≠ JumpState.idle) :
    ∃ o', frame gc sqrt move o i = some o' ∧
      o'.transform
        = some { m_position := o'.motor.m_target_position, m_rotation := i.rotation } ∧
      o'.motor.m_motor_res = o.motor.m_motor_res ∧
      o'.motor.m_desired_horizontal_move_direction = Vector3.ZERO ∧
      o'.motor.m_vertical_move_speed
        = (calculatedDesiredMoveSpeed gc sqrt i.level o.motor i.command
            i.delta_time).m_vertical_move_speed ∧
      o'.motor.m_jump_state =
        (if (calculatedDesiredMoveSpeed gc sqrt i.level o.motor i.command
              i.delta_time).m_jump_state = JumpState.falling ∧ o.motor.m_target_position.z ≤ 0
         then JumpState.idle
         else (calculatedDesiredMoveSpeed gc sqrt i.level o.motor i.command
              i.delta_time).m_jump_state) ∧
      o'.motor.m_target_position =
        (if (calculatedDesiredMoveSpeed gc sqrt i.level o.motor i.command
              i.delta_time).m_jump_state = JumpState.falling ∧ o.motor.m_target_position.z ≤ 0
         then ⟨p.x, p.y, 0⟩
         else ⟨p.x, p.y, p.z + (calculatedDesiredMoveSpeed gc sqrt i.level o.motor i.command
              i.delta_time).m_vertical_move_speed * i.delta_time⟩) := by
  have hwf : (o.face i.rotation).wellFormed := by
    refine ⟨by simp [GObject.face, ht], ?_⟩
    intro h
    rw [show (o.face i.rotation).motor = o.motor from rfl, hnone] at h
    exact absurd h (by simp)
  obtain ⟨o', ho', -, hres, -, -⟩ := tickPlayerMotor_wellFormed gc sqrt move i.level i.command
    (o.face i.rotation) i.delta_time hwf
  have hj := tickPlayerMotor_jump_state gc sqrt move i.level i.command (o.face i.rotation) o'
    i.delta_time hvalid ho'
  obtain ⟨t, htt, hset, htr, hvs, -, -, hd, -, -, -, -, -⟩ :=
    tickPlayerMotor_fields gc sqrt move i.level i.command (o.face i.rotation) o' i.delta_time
      hvalid ho'
  have hm : (o.face i.rotation).motor = o.motor := rfl
  rw [hm] at hj hvs hd hset hres
  have htq : t = { m_position := p, m_rotation := i.rotation } := by
    have : (o.face i.rotation).transform
        = some { m_position := p, m_rotation := i.rotation } := by
      simp [GObject.face, ht]
    rw [this] at htt
    exact (Option.some.inj htt).symm
  subst htq
  have hat : atDisplacement gc sqrt i.level o.motor i.command i.delta_time i.rotation
      = calculatedDesiredMoveSpeed gc sqrt i.level o.motor i.command i.delta_time := by
    unfold atDisplacement
    exact calculatedDesiredMoveDirection_airborne gc sqrt _ i.command i.rotation hair
  have hs := calculatedDesiredMoveSpeed_frame gc sqrt i.level o.motor i.command i.delta_time
  have hdir' : o'.motor.m_desired_horizontal_move_direction = Vector3.ZERO := by
    rw [hd, hat, hs.2.2.2.1, hdir]
  have ha := calculateDesiredDisplacement_atDisplacement gc sqrt i.level o.motor i.command
    i.delta_time i.rotation
  have htg := setTargetPosition_target_of_none move _ o'.motor _ (by rw [ha.2.2]; exact hnone) hset
  rw [ha.1, ha.2.1, calculateDesiredDisplacement_value, hat, hs.2.2.2.1, hdir] at htg
  refine ⟨o', ho', htr, hres, hdir', hvs, hj, ?_⟩
  rw [htg]
  by_cases hsn : (calculatedDesiredMoveSpeed gc sqrt i.level o.motor i.command
      i.delta_time).m_jump_state = JumpState.falling ∧ o.motor.m_target_position.z ≤ 0
  · simp only [if_pos hsn]
    simp [Vector3.add_eq, Vector3.scale_eq, Vector3.ZERO, Vector3.UNIT_Z]
  · simp only [if_neg hsn]
    simp [Vector3.add_eq, Vector3.scale_eq, Vector3.ZERO, Vector3.UNIT_Z]

/-- The sample jump: from rest at the origin (jump height 2, no controller),
a jump under gravity 1 with a frame of one second, then a frame of three
seconds. After the first frame the object is at height 2 rising with speed 2;
after the second it is falling with speed -1 and has been committed at height
-1, because the ground snap looks at the height stored one frame earlier. -/
theorem sampleGrounded_jump :
    ∃ o2, runTicks sampleCommand Real.sqrt sampleMove (sampleGrounded ℝ)
        [⟨some ⟨1⟩, 16, Quaternion.IDENTITY, 1⟩, ⟨some ⟨1⟩, 0, Quaternion.IDENTITY, 3⟩]
        = some o2 ∧
      o2.transform = some { m_position := o2.motor.m_target_position,
                            m_rotation := Quaternion.IDENTITY } ∧
      o2.motor.m_motor_res = (sampleMotor ℝ).m_motor_res ∧
      o2.motor.m_desired_horizontal_move_direction = Vector3.ZERO ∧
      o2.motor.m_vertical_move_speed = -1 ∧
      o2.motor.m_jump_state = JumpState.falling ∧
      o2.motor.m_target_position = ⟨0, 0, -1⟩ := by
  have hv : Real.sqrt ((sampleGrounded ℝ).motor.m_motor_res.m_jump_height * 2
      * (⟨1⟩ : Level ℝ).m_gravity) = 2 := by
    show Real.sqrt (2 * 2 * 1) = 2
    rw [mul_one]
    exact Real.sqrt_mul_self (by norm_num)
  have hl := calculatedDesiredMoveSpeed_launch sampleCommand Real.sqrt ⟨1⟩
    (sampleGrounded ℝ).motor 16 1 rfl (by decide)
  obtain ⟨o1, h1, ht1, hres1, hdir1, hvs1, hj1, htg1⟩ :=
    frame_none_vertical sampleCommand Real.sqrt sampleMove (sampleGrounded ℝ)
      ⟨some ⟨1⟩, 16, Quaternion.IDENTITY, 1⟩ ⟨0, 0, 0⟩ Quaternion.IDENTITY rfl rfl
      (by simp [sampleCommand]) rfl (by rw [hl.1]; simp)
  simp only [hl.1, hl.2.1, hv] at hvs1 hj1 htg1
  rw [if_neg (by simp)] at hj1 htg1
  have htg1' : o1.motor.m_target_position = ⟨0, 0, 2⟩ := by
    rw [htg1]; norm_num
  have hne1 : o1.motor.m_jump_state ≠ JumpState.idle := by rw [hj1]; simp
  have ha := calculatedDesiredMoveSpeed_air sampleCommand Real.sqrt ⟨1⟩ o1.motor 0 3 hne1
  rw [hvs1, hj1] at ha
  have hvs2 : (calculatedDesiredMoveSpeed sampleCommand Real.sqrt (some ⟨1⟩) o1.motor 0
      3).m_vertical_move_speed = -1 := by
    rw [ha.1]; norm_num
  have hjs2 : (calculatedDesiredMoveSpeed sampleCommand Real.sqrt (some ⟨1⟩) o1.motor 0
      3).m_jump_state = JumpState.falling := by
    rw [ha.2, if_pos (by norm_num)]
  obtain ⟨o2, h2, ht2, hres2, hdir2, hvs2', hj2, htg2⟩ :=
    frame_none_vertical sampleCommand Real.sqrt sampleMove o1
      ⟨some ⟨1⟩, 0, Quaternion.IDENTITY, 3⟩ o1.motor.m_target_position Quaternion.IDENTITY
      ht1 (by rw [hres1]; rfl) (by simp [sampleCommand]) hdir1 (by rw [hjs2]; simp)
  simp only [hvs2, hjs2, htg1'] at hvs2' hj2 htg2
  have hnsnap : ¬ ((2 : ℝ) ≤ 0) := by norm_num
  simp only [hnsnap, and_false, if_false] at hj2 htg2
  refine ⟨o2, ?_, ht2, hres2.trans hres1, hdir2, hvs2', hj2, ?_⟩
  · simp only [runTicks, h1, h2]
  · rw [htg2]; norm_num

/-- With a level, a state that is idle after the speed update has vertical
speed 0. -/
theorem calculatedDesiredMoveSpeed_grounded (gc : GameCommand) (sqrt : F → F)
    (level : Level F) (m : MotorComponent F) (command : Nat) (delta_time : F)
    (h : (calculatedDesiredMoveSpeed gc sqrt (some level) m command delta_time).m_jump_state
      = JumpState.idle) :
    (calculatedDesiredMoveSpeed gc sqrt (some level) m command delta_time).m_vertical_move_speed
      = 0 := by
  by_cases hidle : m.m_jump_state = JumpState.idle
  · by_cases hjump : bitSet gc.jump command = true
    · have hl := calculatedDesiredMoveSpeed_launch gc sqrt level m command delta_time hidle hjump
      rw [hl.1] at h
      exact absurd h (by simp)
    · exact (calculatedDesiredMoveSpeed_rest gc sqrt level m command delta_time hidle
        (by simpa using hjump)).2.1
  · exact absurd h
      (calculatedDesiredMoveSpeed_airborne_stays gc sqrt (some level) m command delta_time hidle).1

/-- Normalising scales z like the other coordinates: a zero z stays zero. -/
theorem Vector3.normalise_z (sqrt : F → F) (v : Vector3 F) (hz : v.z = 0) :
    (v.normalise sqrt).z = 0 := by
  unfold Vector3.normalise
  by_cases h : sqrt (v.x * v.x + v.y * v.y + v.z * v.z) = 0
  · simp only [h, if_true]
    exact hz
  · simp only [h, if_false]
    simp [hz]

/-- The speed ratio assigned by the speed update, with or without a level. -/
theorem calculatedDesiredMoveSpeed_ratio (gc : GameCommand) (sqrt : F → F)
    (level : Option (Level F)) (m : MotorComponent F) (command : Nat) (delta_time : F) :
    (calculatedDesiredMoveSpeed gc sqrt level m command delta_time).m_move_speed_ratio
      = (if bitSet gc.sprint command then 2 else 1) := by
  unfold calculatedDesiredMoveSpeed
  cases level with
  | none => rfl
  | some l =>
    cases hj : m.m_jump_state with
    | idle => by_cases hb : bitSet gc.jump command = true <;> simp [hj, hb]
    | rising =>
      by_cases hv : m.m_vertical_move_speed - l.m_gravity * delta_time ≤ 0 <;> simp [hj, hv]
    | falling =>
      by_cases hv : m.m_vertical_move_speed - l.m_gravity * delta_time ≤ 0 <;> simp [hj, hv]

/-! ### Transitions of the jump state -/

/-- The transitions of the speed update: idle stays idle or, with the jump bit
and a level, becomes rising; rising stays rising or becomes falling; falling
stays falling. -/
theorem calculatedDesiredMoveSpeed_transitions (gc : GameCommand) (sqrt : F → F)
    (level : Option (Level F)) (m : MotorComponent F) (command : Nat) (delta_time : F) :
    (m.m_jump_state = JumpState.idle →
      (calculatedDesiredMoveSpeed gc sqrt level m command delta_time).m_jump_state
          = JumpState.idle ∨
      ((calculatedDesiredMoveSpeed gc sqrt level m command delta_time).m_jump_state
          = JumpState.rising ∧ bitSet gc.jump command = true ∧ level ≠ none)) ∧
    (m.m_jump_state = JumpState.rising →
      (calculatedDesiredMoveSpeed gc sqrt level m command delta_time).m_jump_state
          = JumpState.rising ∨
      (calculatedDesiredMoveSpeed gc sqrt level m command delta_time).m_jump_state
          = JumpState.falling) ∧
    (m.m_jump_state = JumpState.falling →
      (calculatedDesiredMoveSpeed gc sqrt level m command delta_time).m_jump_state
          = JumpState.falling) := by
  cases level with
  | none =>
    rw [calculatedDesiredMoveSpeed_skip]
    exact ⟨fun h => Or.inl h, fun h => Or.inl h, fun h => h⟩
  | some l =>
    refine ⟨?_, ?_, ?_⟩
    · intro hidle
      by_cases hjump : bitSet gc.jump command = true
      · exact Or.inr ⟨(calculatedDesiredMoveSpeed_launch gc sqrt l m command delta_time hidle
          hjump).1, hjump, by simp⟩
      · exact Or.inl (calculatedDesiredMoveSpeed_rest gc sqrt l m command delta_time hidle
          (by simpa using hjump)).1
    · intro hr
      rw [(calculatedDesiredMoveSpeed_air gc sqrt l m command delta_time (by rw [hr]; simp)).2]
      by_cases hv : m.m_vertical_move_speed - l.m_gravity * delta_time ≤ 0
      · rw [if_pos hv]; exact Or.inr rfl
      · rw [if_neg hv]; exact Or.inl hr
    · intro hf
      rw [(calculatedDesiredMoveSpeed_air gc sqrt l m command delta_time (by rw [hf]; simp)).2]
      by_cases hv : m.m_vertical_move_speed - l.m_gravity * delta_time ≤ 0
      · rw [if_pos hv]
      · rw [if_neg hv]; exact hf

/-- The speed update keeps the sign of the vertical speed in agreement with the
jump phase, for a non-negative jump height, gravity and elapsed time and a
square root that is non-negative on non-negative arguments. -/
theorem calculatedDesiredMoveSpeed_signAgrees (gc : GameCommand) (sqrt : F → F)
    (level : Option (Level F)) (m : MotorComponent F) (command : Nat) (delta_time : F)
    (hsqrt : ∀ x, 0 ≤ x → 0 ≤ sqrt x) (hh : 0 ≤ m.m_motor_res.m_jump_height)
    (hg : ∀ l, level = some l → 0 ≤ l.m_gravity) (hdt : 0 ≤ delta_time)
    (hm : m.signAgrees) :
    (calculatedDesiredMoveSpeed gc sqrt level m command delta_time).signAgrees := by
  cases level with
  | none =>
    rw [calculatedDesiredMoveSpeed_skip]
    exact hm
  | some l =>
    have hg0 : 0 ≤ l.m_gravity := hg l rfl
    unfold MotorComponent.signAgrees
    by_cases hidle : m.m_jump_state = JumpState.idle
    · by_cases hjump : bitSet gc.jump command = true
      · have hl := calculatedDesiredMoveSpeed_launch gc sqrt l m command delta_time hidle hjump
        rw [hl.1, hl.2.1]
        refine ⟨fun h => absurd h (by simp), fun _ => hsqrt _ ?_⟩
        exact mul_nonneg (mul_nonneg hh (by norm_num)) hg0
      · have hr := calculatedDesiredMoveSpeed_rest gc sqrt l m command delta_time hidle
          (by simpa using hjump)
        rw [hr.1, hr.2.1]
        exact ⟨fun _ => le_refl 0, fun _ => le_refl 0⟩
    · have ha := calculatedDesiredMoveSpeed_air gc sqrt l m command delta_time hidle
      rw [ha.1, ha.2]
      have hgd : 0 ≤ l.m_gravity * delta_time := mul_nonneg hg0 hdt
      by_cases hv : m.m_vertical_move_speed - l.m_gravity * delta_time ≤ 0
      · rw [if_pos hv]
        exact ⟨fun _ => hv, fun h => absurd h (by simp)⟩
      · rw [if_neg hv]
        refine ⟨fun h => ?_, fun _ => le_of_lt (not_le.mp hv)⟩
        have := hm.1 h
        linarith

/-- A tick keeps the sign of the vertical speed in agreement with the jump
phase. -/
theorem tickPlayerMotor_signAgrees (gc : GameCommand) (sqrt : F → F)
    (move : CharacterController F → Vector3 F → Vector3 F → Vector3 F)
    (level : Option (Level F)) (command : Nat) (o o' : GObject F) (delta_time : F)
    (hsqrt : ∀ x, 0 ≤ x → 0 ≤ sqrt x) (hh : 0 ≤ o.motor.m_motor_res.m_jump_height)
    (hg : ∀ l, level = some l → 0 ≤ l.m_gravity) (hdt : 0 ≤ delta_time)
    (hm : o.motor.signAgrees)
    (h : tickPlayerMotor gc sqrt move level command o delta_time = some o') :
    o'.motor.signAgrees := by
  by_cases hvalid : command < gc.invalid
  · have h1 := calculatedDesiredMoveSpeed_signAgrees gc sqrt level o.motor command delta_time
      hsqrt hh hg hdt hm
    have hj := tickPlayerMotor_jump_state gc sqrt move level command o o' delta_time hvalid h
    obtain ⟨t, -, -, -, hvs, -⟩ :=
      tickPlayerMotor_fields gc sqrt move level command o o' delta_time hvalid h
    unfold MotorComponent.signAgrees at h1 ⊢
    rw [hvs, hj]
    by_cases hs : (calculatedDesiredMoveSpeed gc sqrt level o.motor command
        delta_time).m_jump_state = JumpState.falling ∧ o.motor.m_target_position.z ≤ 0
    · rw [if_pos hs]
      exact ⟨fun h => absurd h (by simp), fun h => absurd h (by simp)⟩
    · rw [if_neg hs]
      exact h1
  · unfold tickPlayerMotor at h
    rw [if_pos (not_lt.mp hvalid)] at h
    rw [← Option.some.inj h]
    exact hm

/-- A run on a well-formed object succeeds and keeps the sign of the vertical
speed in agreement with the jump phase, for non-negative jump height, gravities
and elapsed times. -/
theorem runTicks_signAgrees (gc : GameCommand) (sqrt : F → F)
    (move : CharacterController F → Vector3 F → Vector3 F → Vector3 F)
    (ticks : List (TickInput F)) (o : GObject F)
    (hsqrt : ∀ x, 0 ≤ x → 0 ≤ sqrt x) (hwf : o.wellFormed)
    (hh : 0 ≤ o.motor.m_motor_res.m_jump_height)
    (hticks : ∀ i ∈ ticks, 0 ≤ i.delta_time ∧ ∀ l, i.level = some l → 0 ≤ l.m_gravity)
    (hm : o.motor.signAgrees) :
    ∃ o', runTicks gc sqrt move o ticks = some o' ∧ o'.wellFormed ∧ o'.motor.signAgrees ∧
      o'.motor.m_motor_res = o.motor.m_motor_res := by
  induction ticks generalizing o with
  | nil => exact ⟨o, rfl, hwf, hm, rfl⟩
  | cons i rest ih =>
    obtain ⟨o1, ho1, hwf1, hres1, -, -⟩ := tickPlayerMotor_wellFormed gc sqrt move i.level
      i.command (o.face i.rotation) i.delta_time (o.face_wellFormed i.rotation hwf).1
    have hi := hticks i (by simp)
    have hs1 := tickPlayerMotor_signAgrees gc sqrt move i.level i.command (o.face i.rotation)
      o1 i.delta_time hsqrt hh hi.2 hi.1 hm ho1
    have hres1' : o1.motor.m_motor_res = o.motor.m_motor_res := hres1
    obtain ⟨o', ho', hwf', hs', hres'⟩ := ih o1 hwf1 (by rw [hres1']; exact hh)
      (fun j hj => hticks j (by simp [hj])) hs1
    refine ⟨o', ?_, hwf', hs', hres'.trans hres1'⟩
    simp only [runTicks, frame, ho1]
    exact ho'

/-- Frames that all start airborne, with recognised commands, keep the horizontal
direction, the latched ratio and the move speed, and the last of them computes
its displacement from these. -/
theorem runTicks_airborne (gc : GameCommand) (sqrt : F → F)
    (move : CharacterController F → Vector3 F → Vector3 F → Vector3 F)
    (ticks : List (TickInput F)) (last : TickInput F) (o : GObject F)
    (hwf : o.wellFormed)
    (hvalid : ∀ i ∈ ticks ++ [last], i.command < gc.invalid)
    (hair : ∀ k ≤ ticks.length, ∀ ok, runTicks gc sqrt move o (ticks.take k) = some ok →
      ok.motor.m_jump_state ≠ JumpState.idle) :
    ∃ o', runTicks gc sqrt move o (ticks ++ [last]) = some o' ∧
      o'.motor.m_move_speed = o.motor.m_move_speed ∧
      o'.motor.m_desired_horizontal_move_direction
        = o.motor.m_desired_horizontal_move_direction ∧
      o'.motor.m_jump_horizontal_speed_ratio = o.motor.m_jump_horizontal_speed_ratio ∧
      o'.motor.m_desired_displacement =
        o.motor.m_desired_horizontal_move_direction * o.motor.m_move_speed
            * o.motor.m_jump_horizontal_speed_ratio * last.delta_time +
        (Vector3.UNIT_Z : Vector3 F) * o'.motor.m_vertical_move_speed * last.delta_time := by
  induction ticks generalizing o with
  | nil =>
    obtain ⟨o', ho', -, hspd, hdir, hrat, hdisp⟩ :=
      tickPlayerMotor_airborne_step gc sqrt move last.level last.command (o.face last.rotation)
        last.delta_time (o.face_wellFormed last.rotation hwf).1 (hvalid last (by simp))
        (hair 0 (Nat.le_refl 0) o rfl)
    refine ⟨o', ?_, hspd, hdir, hrat, hdisp⟩
    rw [List.nil_append, runTicks_singleton]
    exact ho'
  | cons j rest ih =>
    obtain ⟨o1, ho1, hwf1, hspd, hdir, hrat, -⟩ :=
      tickPlayerMotor_airborne_step gc sqrt move j.level j.command (o.face j.rotation)
        j.delta_time (o.face_wellFormed j.rotation hwf).1 (hvalid j (by simp))
        (hair 0 (Nat.zero_le _) o rfl)
    have hstep : ∀ l, runTicks gc sqrt move o (j :: l) = runTicks gc sqrt move o1 l := by
      intro l
      simp only [runTicks, frame, ho1]
    obtain ⟨o', ho', hspd', hdir', hrat', hdisp'⟩ := ih o1 hwf1
      (fun i hi => hvalid i (by simp only [List.cons_append, List.mem_cons]; exact Or.inr hi))
      (fun k hk ok hok => hair (k + 1) (by simpa using hk) ok (by
        rw [List.take_succ_cons, hstep]; exact hok))
    have hdir0 : o1.motor.m_desired_horizontal_move_direction
        = o.motor.m_desired_horizontal_move_direction := hdir
    have hrat0 : o1.motor.m_jump_horizontal_speed_ratio
        = o.motor.m_jump_horizontal_speed_ratio := hrat
    have hspd0 : o1.motor.m_move_speed = o.motor.m_move_speed := hspd
    refine ⟨o', ?_, hspd'.trans hspd0, hdir'.trans hdir0, hrat'.trans hrat0, ?_⟩
    · rw [List.cons_append, hstep]; exact ho'
    · rw [hdisp', hdir0, hrat0, hspd0]

/-- A launch from a state with no horizontal direction under the controller kind
none, whose frame commits a height `≤ 0`, followed by a frame whose speed update
gives a speed `≤ 0`: the second frame ends idle, by the ground snap. -/
theorem launch_then_snap (gc : GameCommand) (sqrt : F → F)
    (move : CharacterController F → Vector3 F → Vector3 F → Vector3 F)
    (o : GObject F) (i1 i2 : TickInput F) (p : Vector3 F) (q0 : Quaternion F)
    (l1 l2 : Level F)
    (ht : o.transform = some { m_position := p, m_rotation := q0 })
    (hnone : o.motor.m_motor_res.m_controller_type = ControllerType.none)
    (hdir : o.motor.m_desired_horizontal_move_direction = Vector3.ZERO)
    (hl1 : i1.level = some l1) (hl2 : i2.level = some l2)
    (hv1 : i1.command < gc.invalid) (hv2 : i2.command < gc.invalid)
    (hidle : o.motor.m_jump_state = JumpState.idle)
    (hjump : bitSet gc.jump i1.command = true)
    (hlow : p.z + sqrt (o.motor.m_motor_res.m_jump_height * 2 * l1.m_gravity) * i1.delta_time
      ≤ 0)
    (hfall : sqrt (o.motor.m_motor_res.m_jump_height * 2 * l1.m_gravity)
      - l2.m_gravity * i2.delta_time ≤ 0) :
    ∃ o2, runTicks gc sqrt move o [i1, i2] = some o2 ∧
      o2.motor.m_jump_state = JumpState.idle := by
  have hl := calculatedDesiredMoveSpeed_launch gc sqrt l1 o.motor i1.command i1.delta_time
    hidle hjump
  rw [← hl1] at hl
  obtain ⟨o1, h1, ht1, hres1, hdir1, hvs1, hj1, htg1⟩ :=
    frame_none_vertical gc sqrt move o i1 p q0 ht hnone hv1 hdir (by rw [hl.1]; simp)
  simp only [hl.1, hl.2.1] at hvs1 hj1 htg1
  rw [if_neg (by simp)] at hj1 htg1
  have hne1 : o1.motor.m_jump_state ≠ JumpState.idle := by rw [hj1]; simp
  have ha := calculatedDesiredMoveSpeed_air gc sqrt l2 o1.motor i2.command i2.delta_time hne1
  rw [← hl2, hvs1, hj1, if_pos hfall] at ha
  obtain ⟨o2, h2, -, -, -, -, hj2, -⟩ :=
    frame_none_vertical gc sqrt move o1 i2 o1.motor.m_target_position i1.rotation
      ht1 (by rw [hres1]; exact hnone) hv2 hdir1 (by rw [ha.2]; simp)
  have hz : o1.motor.m_target_position.z ≤ 0 := by
    rw [htg1]; exact hlow
  rw [ha.2, if_pos ⟨rfl, hz⟩] at hj2
  refine ⟨o2, ?_, hj2⟩
  simp only [runTicks, h1, h2]

/-! ### The claims -/

/-- C1. Idle branch of the jump-state update with an active level: the speed
ratio is 2 under sprint and 1 otherwise; with the jump bit set the state becomes
rising, the vertical speed is `sqrt (2 * jumpHeight * gravity)` and the latched
ratio is the ratio assigned on this tick; without it the state stays idle with
vertical speed 0. It holds for every gravity and jump height, in particular for
`g > 0` and `h ≥ 0`. -/
theorem calculatedDesiredMoveSpeed_idle (gc : GameCommand) (sqrt : F → F) (level : Level F)
    (m : MotorComponent F) (command : Nat) (delta_time : F)
    (hidle : m.m_jump_state = JumpState.idle) :
    (calculatedDesiredMoveSpeed gc sqrt (some level) m command delta_time).m_move_speed_ratio
        = (if bitSet gc.sprint command then 2 else 1) ∧
    (bitSet gc.jump command = true →
      (calculatedDesiredMoveSpeed gc sqrt (some level) m command delta_time).m_jump_state
          = JumpState.rising ∧
      (calculatedDesiredMoveSpeed gc sqrt (some level) m command delta_time).m_vertical_move_speed
          = sqrt (2 * m.m_motor_res.m_jump_height * level.m_gravity) ∧
      (calculatedDesiredMoveSpeed gc sqrt (some level) m command
          delta_time).m_jump_horizontal_speed_ratio
          = (if bitSet gc.sprint command then 2 else 1)) ∧
    (bitSet gc.jump command = false →
      (calculatedDesiredMoveSpeed gc sqrt (some level) m command delta_time).m_jump_state
          = JumpState.idle ∧
      (calculatedDesiredMoveSpeed gc sqrt (some level) m command delta_time).m_vertical_move_speed
          = 0) := by
  have hcomm : m.m_motor_res.m_jump_height * 2 * level.m_gravity
      = 2 * m.m_motor_res.m_jump_height * level.m_gravity := by ring
  refine ⟨?_, ?_, ?_⟩
  · unfold calculatedDesiredMoveSpeed
    simp only [hidle]
    split <;> rfl
  · intro hjump
    unfold calculatedDesiredMoveSpeed
    simp [hidle, hjump, hcomm]
  · intro hjump
    unfold calculatedDesiredMoveSpeed
    simp [hidle, hjump]

/-- Witness of C1 over the reals with the real square root: a sprinting jump
from rest under gravity 10 with jump height 2. -/
theorem calculatedDesiredMoveSpeed_idle_witness :
    (sampleMotor ℝ).m_jump_state = JumpState.idle ∧
    bitSet sampleCommand.jump 80 = true ∧
    (calculatedDesiredMoveSpeed sampleCommand Real.sqrt (some ⟨10⟩) (sampleMotor ℝ) 80
        1).m_jump_state = JumpState.rising ∧
    (calculatedDesiredMoveSpeed sampleCommand Real.sqrt (some ⟨10⟩) (sampleMotor ℝ) 80
        1).m_vertical_move_speed = Real.sqrt (2 * 2 * 10) :=
  ⟨rfl, by decide,
    ((calculatedDesiredMoveSpeed_idle sampleCommand Real.sqrt ⟨10⟩ (sampleMotor ℝ) 80 1 rfl).2.1
      (by decide)).1,
    ((calculatedDesiredMoveSpeed_idle sampleCommand Real.sqrt ⟨10⟩ (sampleMotor ℝ) 80 1 rfl).2.1
      (by decide)).2.1⟩

/-- C2. Airborne branch of the jump-state update with an active level: from
rising or falling the vertical speed loses `gravity * delta_time`; the state is
falling when the new speed is `≤ 0` and is otherwise kept; it is never idle, and
the latched horizontal ratio is untouched. -/
theorem calculatedDesiredMoveSpeed_airborne (gc : GameCommand) (sqrt : F → F) (level : Level F)
    (m : MotorComponent F) (command : Nat) (delta_time : F)
    (hair : m.m_jump_state = JumpState.rising ∨ m.m_jump_state = JumpState.falling) :
    (calculatedDesiredMoveSpeed gc sqrt (some level) m command delta_time).m_vertical_move_speed
        = m.m_vertical_move_speed - level.m_gravity * delta_time ∧
    (calculatedDesiredMoveSpeed gc sqrt (some level) m command delta_time).m_jump_state
        = (if m.m_vertical_move_speed - level.m_gravity * delta_time ≤ 0 then JumpState.falling
           else m.m_jump_state) ∧
    (calculatedDesiredMoveSpeed gc sqrt (some level) m command delta_time).m_jump_state
        ≠ JumpState.idle ∧
    (calculatedDesiredMoveSpeed gc sqrt (some level) m command
        delta_time).m_jump_horizontal_speed_ratio = m.m_jump_horizontal_speed_ratio := by
  rcases hair with h | h <;>
    by_cases hv : m.m_vertical_move_speed - level.m_gravity * delta_time ≤ 0 <;>
    simp [calculatedDesiredMoveSpeed, h, hv]

/-- Witness of C2: a rising component with vertical speed 6 under gravity 10
after one second has vertical speed `6 - 10 * 1` and is falling. -/
theorem calculatedDesiredMoveSpeed_airborne_witness :
    (calculatedDesiredMoveSpeed sampleCommand Real.sqrt (some ⟨10⟩)
        { sampleMotor ℝ with m_jump_state := JumpState.rising, m_vertical_move_speed := 6 } 0
        1).m_vertical_move_speed = 6 - 10 * 1 ∧
    (calculatedDesiredMoveSpeed sampleCommand Real.sqrt (some ⟨10⟩)
        { sampleMotor ℝ with m_jump_state := JumpState.rising, m_vertical_move_speed := 6 } 0
        1).m_jump_state ≠ JumpState.idle :=
  ⟨(calculatedDesiredMoveSpeed_airborne sampleCommand Real.sqrt ⟨10⟩
      { sampleMotor ℝ with m_jump_state := JumpState.rising, m_vertical_move_speed := 6 } 0 1
      (Or.inl rfl)).1,
   (calculatedDesiredMoveSpeed_airborne sampleCommand Real.sqrt ⟨10⟩
      { sampleMotor ℝ with m_jump_state := JumpState.rising, m_vertical_move_speed := 6 } 0 1
      (Or.inl rfl)).2.2.1⟩

/-- C3. Ground snap in `setTargetPosition`, for every controller kind (a physics
kind having its controller): the call succeeds; if the state is falling and the
z of the target position stored before the call is `≤ 0`, the new target has z
exactly 0 (x and y as dispatched) and the state becomes idle; otherwise the state
is unchanged and the new target is exactly the dispatched position. The test
reads the stored target, not the dispatched position. -/
theorem setTargetPosition_ground_snap
    (move : CharacterController F → Vector3 F → Vector3 F → Vector3 F)
    (m : MotorComponent F) (current_position : Vector3 F)
    (hctl : m.m_motor_res.m_controller_type = ControllerType.physics → m.m_controller ≠ none) :
    ∃ final_position m',
      dispatchPosition move m current_position = some final_position ∧
      setTargetPosition move m current_position = some m' ∧
      (m.m_jump_state = JumpState.falling ∧ m.m_target_position.z ≤ 0 →
        m'.m_target_position.z = 0 ∧ m'.m_target_position.x = final_position.x ∧
        m'.m_target_position.y = final_position.y ∧ m'.m_jump_state = JumpState.idle) ∧
      (¬ (m.m_jump_state = JumpState.falling ∧ m.m_target_position.z ≤ 0) →
        m'.m_jump_state = m.m_jump_state ∧ m'.m_target_position = final_position) := by
  have hd : ∃ final_position, dispatchPosition move m current_position = some final_position := by
    unfold dispatchPosition
    cases ht : m.m_motor_res.m_controller_type with
    | none => exact ⟨_, rfl⟩
    | invalid => exact ⟨_, rfl⟩
    | physics =>
      cases hc : m.m_controller with
      | none => exact absurd hc (hctl ht)
      | some c => exact ⟨_, rfl⟩
  obtain ⟨fp, hfp⟩ := hd
  by_cases hs : m.m_jump_state = JumpState.falling ∧ m.m_target_position.z ≤ 0
  · refine ⟨fp, { m with m_jump_state := JumpState.idle
                         m_target_position := { fp with z := 0 } }, hfp, ?_,
      fun _ => ⟨rfl, rfl, rfl, rfl⟩, fun hn => absurd hs hn⟩
    simp only [setTargetPosition, hfp, if_pos hs]
  · refine ⟨fp, { m with m_target_position := fp }, hfp, ?_,
      fun h => absurd h hs, fun _ => ⟨rfl, rfl⟩⟩
    simp only [setTargetPosition, hfp, if_neg hs]

/-- Witness of C3: a falling component with a physics controller whose stored
target has z = 0 is snapped, although the dispatched position has z = 7. -/
theorem setTargetPosition_ground_snap_witness :
    ∃ final_position m',
      dispatchPosition sampleMove
        { sampleMotor ℚ with
          m_motor_res := { (sampleMotor ℚ).m_motor_res with
            m_controller_type := ControllerType.physics }
          m_controller := some ⟨⟨1, 1⟩⟩
          m_jump_state := JumpState.falling } ⟨3, 4, 7⟩ = some final_position ∧
      final_position.z = 7 ∧
      setTargetPosition sampleMove
        { sampleMotor ℚ with
          m_motor_res := { (sampleMotor ℚ).m_motor_res with
            m_controller_type := ControllerType.physics }
          m_controller := some ⟨⟨1, 1⟩⟩
          m_jump_state := JumpState.falling } ⟨3, 4, 7⟩ = some m' ∧
      m'.m_target_position.z = 0 ∧ m'.m_jump_state = JumpState.idle := by
  obtain ⟨fp, m', h1, h2, h3, _⟩ := setTargetPosition_ground_snap sampleMove
    { sampleMotor ℚ with
      m_motor_res := { (sampleMotor ℚ).m_motor_res with
        m_controller_type := ControllerType.physics }
      m_controller := some ⟨⟨1, 1⟩⟩
      m_jump_state := JumpState.falling } ⟨3, 4, 7⟩ (fun _ => by simp)
  have hz : fp.z = 7 := by
    have : fp = ⟨3, 4, 7⟩ := by
      simpa [dispatchPosition, sampleMove, sampleMotor] using h1.symm
    rw [this]
  exact ⟨fp, m', h1, hz, h2, (h3 ⟨rfl, by simp [sampleMotor, Vector3.ZERO]⟩).1,
    (h3 ⟨rfl, by simp [sampleMotor, Vector3.ZERO]⟩).2.2.2⟩

/-- C4, as the code has it. Under the invalid controller kind the `switch` falls
to `default` and the displacement is dropped: the target becomes the current
position, whereas under the kind none it becomes current + displacement. -/
theorem setTargetPosition_invalid_differs_from_none :
    (setTargetPosition sampleMove
        (withControllerType { sampleMotor ℚ with m_desired_displacement := ⟨1, 2, 3⟩ }
          ControllerType.none) ⟨0, 0, 0⟩).map (fun r => r.m_target_position)
      = some ⟨1, 2, 3⟩ ∧
    (setTargetPosition sampleMove
        (withControllerType { sampleMotor ℚ with m_desired_displacement := ⟨1, 2, 3⟩ }
          ControllerType.invalid) ⟨0, 0, 0⟩).map (fun r => r.m_target_position)
      = some ⟨0, 0, 0⟩ ∧
    (setTargetPosition sampleMove
        (withControllerType { sampleMotor ℚ with m_desired_displacement := ⟨1, 2, 3⟩ }
          ControllerType.invalid) ⟨0, 0, 0⟩).map (fun r => r.m_target_position)
      ≠ (setTargetPosition sampleMove
        (withControllerType { sampleMotor ℚ with m_desired_displacement := ⟨1, 2, 3⟩ }
          ControllerType.none) ⟨0, 0, 0⟩).map (fun r => r.m_target_position) := by
  simp [setTargetPosition, dispatchPosition, withControllerType, sampleMotor, Vector3.ZERO,
    Vector3.add_eq]

/-- C4 amended. Under the invalid controller kind `setTargetPosition` succeeds,
leaves the same jump state as under the kind none, and sets the target to the
current position itself (z forced to 0 when the ground snap fires), whatever the
desired displacement is. -/
theorem setTargetPosition_invalid
    (move : CharacterController F → Vector3 F → Vector3 F → Vector3 F)
    (m : MotorComponent F) (current_position : Vector3 F) :
    ∃ mi mn,
      setTargetPosition move (withControllerType m ControllerType.invalid) current_position
        = some mi ∧
      setTargetPosition move (withControllerType m ControllerType.none) current_position
        = some mn ∧
      mi.m_jump_state = mn.m_jump_state ∧
      mi.m_target_position =
        (if m.m_jump_state = JumpState.falling ∧ m.m_target_position.z ≤ 0
         then { current_position with z := 0 } else current_position) := by
  by_cases hs : m.m_jump_state = JumpState.falling ∧ m.m_target_position.z ≤ 0
  · refine ⟨{ withControllerType m ControllerType.invalid with
                m_jump_state := JumpState.idle
                m_target_position := { current_position with z := 0 } },
             { withControllerType m ControllerType.none with
                m_jump_state := JumpState.idle
                m_target_position := { current_position + m.m_desired_displacement with z := 0 } },
             ?_, ?_, rfl, ?_⟩
    · simp [setTargetPosition, dispatchPosition, withControllerType, hs]
    · simp [setTargetPosition, dispatchPosition, withControllerType, hs]
    · simp [hs]
  · refine ⟨{ withControllerType m ControllerType.invalid with
                m_target_position := current_position },
             { withControllerType m ControllerType.none with
                m_target_position := current_position + m.m_desired_displacement },
             ?_, ?_, rfl, ?_⟩
    · simp [setTargetPosition, dispatchPosition, withControllerType, hs]
    · simp [setTargetPosition, dispatchPosition, withControllerType, hs]
    · simp [hs]

/-- C5. Under the controller kind none `setTargetPosition` succeeds and sets the
target to current + displacement whenever the state is not falling or the stored
target has z `> 0`; when the ground snap fires, x and y are still those of
current + displacement. -/
theorem setTargetPosition_none
    (move : CharacterController F → Vector3 F → Vector3 F → Vector3 F)
    (m : MotorComponent F) (current_position : Vector3 F)
    (hnone : m.m_motor_res.m_controller_type = ControllerType.none) :
    ∃ m', setTargetPosition move m current_position = some m' ∧
      (m.m_jump_state ≠ JumpState.falling ∨ 0 < m.m_target_position.z →
        m'.m_target_position = current_position + m.m_desired_displacement) ∧
      (m.m_jump_state = JumpState.falling ∧ m.m_target_position.z ≤ 0 →
        m'.m_target_position.x = current_position.x + m.m_desired_displacement.x ∧
        m'.m_target_position.y = current_position.y + m.m_desired_displacement.y) := by
  by_cases hs : m.m_jump_state = JumpState.falling ∧ m.m_target_position.z ≤ 0
  · refine ⟨{ m with m_jump_state := JumpState.idle
                     m_target_position :=
                       { current_position + m.m_desired_displacement with z := 0 } },
      ?_, ?_, fun _ => ⟨rfl, rfl⟩⟩
    · simp [setTargetPosition, dispatchPosition, hnone, hs]
    · rintro (h | h)
      · exact absurd hs.1 h
      · exact absurd hs.2 (not_le.mpr h)
  · refine ⟨{ m with m_target_position := current_position + m.m_desired_displacement },
      ?_, fun _ => rfl, fun h => absurd h hs⟩
    simp [setTargetPosition, dispatchPosition, hnone, hs]

/-- Witness of C5: at rest, from (1, 1, 1) with displacement (1, 2, 3). -/
theorem setTargetPosition_none_witness :
    (sampleMotor ℚ).m_motor_res.m_controller_type = ControllerType.none ∧
    ∃ m', setTargetPosition sampleMove
        { sampleMotor ℚ with m_desired_displacement := ⟨1, 2, 3⟩ } ⟨1, 1, 1⟩ = some m' ∧
      m'.m_target_position = (⟨1, 1, 1⟩ : Vector3 ℚ) + ⟨1, 2, 3⟩ := by
  obtain ⟨m', h1, h2, _⟩ := setTargetPosition_none sampleMove
    { sampleMotor ℚ with m_desired_displacement := ⟨1, 2, 3⟩ } ⟨1, 1, 1⟩ rfl
  exact ⟨rfl, m', h1, h2 (Or.inl (by simp [sampleMotor]))⟩

/-- C6. Airborne freeze. Take any well-formed object and any sequence of frames
with recognised commands (any levels, rotations, elapsed times, sprint toggles)
such that the jump state is rising or falling at the start of each frame. Then
the run succeeds, the horizontal direction and the latched ratio are those of
the start, and the horizontal part of the displacement computed by the last
frame is direction * move speed * latched ratio * elapsed time. -/
theorem airborne_freeze (gc : GameCommand) (sqrt : F → F)
    (move : CharacterController F → Vector3 F → Vector3 F → Vector3 F)
    (ticks : List (TickInput F)) (last : TickInput F) (o : GObject F)
    (hwf : o.wellFormed)
    (hvalid : ∀ i ∈ ticks ++ [last], i.command < gc.invalid)
    (hair : ∀ k ≤ ticks.length, ∀ ok, runTicks gc sqrt move o (ticks.take k) = some ok →
      ok.motor.m_jump_state = JumpState.rising ∨ ok.motor.m_jump_state = JumpState.falling) :
    ∃ o', runTicks gc sqrt move o (ticks ++ [last]) = some o' ∧
      o'.motor.m_desired_horizontal_move_direction
        = o.motor.m_desired_horizontal_move_direction ∧
      o'.motor.m_jump_horizontal_speed_ratio = o.motor.m_jump_horizontal_speed_ratio ∧
      o'.motor.m_desired_displacement.x =
        o.motor.m_desired_horizontal_move_direction.x * o.motor.m_move_speed
          * o.motor.m_jump_horizontal_speed_ratio * last.delta_time ∧
      o'.motor.m_desired_displacement.y =
        o.motor.m_desired_horizontal_move_direction.y * o.motor.m_move_speed
          * o.motor.m_jump_horizontal_speed_ratio * last.delta_time := by
  have hne : ∀ s : JumpState, s = JumpState.rising ∨ s = JumpState.falling →
      s ≠ JumpState.idle := by
    intro s hs
    rcases hs with h | h <;> simp [h]
  induction ticks generalizing o with
  | nil =>
    have h0 := hne _ (hair 0 (Nat.le_refl 0) o rfl)
    obtain ⟨o', ho', -, -, hdir, hrat, hdisp⟩ :=
      tickPlayerMotor_airborne_step gc sqrt move last.level last.command (o.face last.rotation)
        last.delta_time (o.face_wellFormed last.rotation hwf).1 (hvalid last (by simp)) h0
    refine ⟨o', ?_, hdir, hrat, ?_, ?_⟩
    · simp only [List.nil_append, runTicks, frame, ho']
    · rw [hdisp]
      simp [Vector3.add_eq, Vector3.scale_eq, Vector3.UNIT_Z, GObject.face]
    · rw [hdisp]
      simp [Vector3.add_eq, Vector3.scale_eq, Vector3.UNIT_Z, GObject.face]
  | cons j rest ih =>
    have h0 := hne _ (hair 0 (Nat.zero_le _) o rfl)
    obtain ⟨o1, ho1, hwf1, hspd, hdir, hrat, -⟩ :=
      tickPlayerMotor_airborne_step gc sqrt move j.level j.command (o.face j.rotation)
        j.delta_time (o.face_wellFormed j.rotation hwf).1 (hvalid j (by simp)) h0
    have hstep : ∀ l, runTicks gc sqrt move o (j :: l) = runTicks gc sqrt move o1 l := by
      intro l
      simp only [runTicks, frame, ho1]
    obtain ⟨o', ho', hdir', hrat', hx, hy⟩ := ih o1 hwf1
      (fun i hi => hvalid i (by simp only [List.cons_append, List.mem_cons]; exact Or.inr hi))
      (fun k hk ok hok => hair (k + 1) (by simpa using hk) ok (by
        rw [List.take_succ_cons, hstep]; exact hok))
    have hdir0 : o1.motor.m_desired_horizontal_move_direction
        = o.motor.m_desired_horizontal_move_direction := hdir
    have hrat0 : o1.motor.m_jump_horizontal_speed_ratio
        = o.motor.m_jump_horizontal_speed_ratio := hrat
    have hspd0 : o1.motor.m_move_speed = o.motor.m_move_speed := hspd
    refine ⟨o', ?_, hdir'.trans hdir0, hrat'.trans hrat0, ?_, ?_⟩
    · rw [List.cons_append, hstep]; exact ho'
    · rw [hx, hdir0, hrat0, hspd0]
    · rw [hy, hdir0, hrat0, hspd0]

/-- Witness of C6: two frames of one second under gravity 10 in mid-jump, the
first with the sprint bit and the left bit, the second with no bit at all. -/
theorem airborne_freeze_witness :
    ∃ o', runTicks sampleCommand Real.sqrt sampleMove (sampleAirborne ℝ)
        ([⟨some ⟨10⟩, 68, Quaternion.IDENTITY, 1⟩] ++ [⟨some ⟨10⟩, 0, Quaternion.IDENTITY, 1⟩])
        = some o' ∧
      o'.motor.m_desired_horizontal_move_direction = Vector3.NEGATIVE_UNIT_Y ∧
      o'.motor.m_jump_horizontal_speed_ratio = 1 := by
  obtain ⟨o', h1, h2, h3, -, -⟩ := airborne_freeze sampleCommand Real.sqrt sampleMove
    [⟨some ⟨10⟩, 68, Quaternion.IDENTITY, 1⟩] ⟨some ⟨10⟩, 0, Quaternion.IDENTITY, 1⟩
    (sampleAirborne ℝ) ⟨by simp [sampleAirborne], by simp [sampleAirborne, sampleMotor]⟩
    (by
      intro i hi
      simp only [List.singleton_append, List.mem_cons, List.mem_singleton, List.not_mem_nil,
        or_false] at hi
      rcases hi with h | h <;> subst h <;> simp [sampleCommand])
    (by
      intro k hk ok hok
      have hk1 : k = 0 ∨ k = 1 := by
        simp only [List.length_singleton] at hk
        omega
      rcases hk1 with h | h
      · subst h
        simp only [List.take_zero, runTicks, Option.some.injEq] at hok
        subst hok
        exact Or.inl rfl
      · subst h
        left
        cases hf : frame sampleCommand Real.sqrt sampleMove (sampleAirborne ℝ)
            ⟨some ⟨10⟩, 68, Quaternion.IDENTITY, 1⟩ with
        | none => simp [runTicks, hf] at hok
        | some o1 =>
          simp only [List.take_succ_cons, List.take_zero, runTicks, hf, Option.some.injEq] at hok
          subst hok
          have hj := tickPlayerMotor_jump_state sampleCommand Real.sqrt sampleMove (some ⟨10⟩) 68
            ((sampleAirborne ℝ).face Quaternion.IDENTITY) o1 1 (by simp [sampleCommand]) hf
          have hs : (calculatedDesiredMoveSpeed sampleCommand Real.sqrt (some ⟨10⟩)
              ((sampleAirborne ℝ).face Quaternion.IDENTITY).motor 68 1).m_jump_state
              = JumpState.rising := by
            simp [calculatedDesiredMoveSpeed, GObject.face, sampleAirborne, sampleMotor]
            norm_num
          rw [hs] at hj
          simpa using hj)
  exact ⟨o', h1, h2, h3⟩

/-- C7, as the code has it. In the scenario (move speed 5, one second, forward
only, identity rotation, idle, no controller, start at the origin) the tick ends
at (0, -5, 0), not at (0, 5, 0): the canonical forward axis is `NEGATIVE_UNIT_Y`. -/
theorem scenario_forward_tick_is_negative_y :
    ∃ o', tickPlayerMotor sampleCommand Real.sqrt sampleMove (some ⟨10⟩) 1
        { motor := sampleMotor ℝ,
          transform := some { m_position := ⟨0, 0, 0⟩, m_rotation := Quaternion.IDENTITY } } 1
        = some o' ∧
      o'.motor.m_target_position = ⟨0, -5, 0⟩ ∧
      o'.motor.m_target_position ≠ ⟨0, 5, 0⟩ := by
  obtain ⟨o', h1, -, h2, -⟩ := tickPlayerMotor_forward_only sampleCommand Real.sqrt sampleMove
    (some ⟨10⟩) 1 (sampleMotor ℝ) ⟨0, 0, 0⟩ 1 Real.sqrt_one (by simp [sampleCommand])
    (by decide) (by decide) (by decide) (by decide) (by decide) (by decide) rfl rfl rfl
  have h3 : o'.motor.m_target_position = ⟨0, -5, 0⟩ := by
    rw [h2]
    simp [sampleMotor]
  refine ⟨o', h1, h3, ?_⟩
  rw [h3]
  intro h
  have hy := congrArg Vector3.y h
  norm_num at hy

/-- C7 amended. With move speed 5, elapsed time 1, a recognised command with
only the forward bit, identity rotation, idle state, vertical speed 0, no
controller and start position (0, 0, 0), one tick (level present or not)
succeeds, writes the position (0, -5, 0) to the target and to the transform, and
leaves the state idle. The square root is any function with `sqrt 1 = 1`. -/
theorem scenario_forward_tick (gc : GameCommand) (sqrt : F → F)
    (move : CharacterController F → Vector3 F → Vector3 F → Vector3 F)
    (level : Option (Level F)) (command : Nat) (m : MotorComponent F)
    (hsqrt : sqrt 1 = 1) (hvalid : command < gc.invalid)
    (hf : bitSet gc.forward command = true) (hb : bitSet gc.backward command = false)
    (hl : bitSet gc.left command = false) (hr : bitSet gc.right command = false)
    (hj : bitSet gc.jump command = false) (hs : bitSet gc.sprint command = false)
    (hspeed : m.m_move_speed = 5)
    (hidle : m.m_jump_state = JumpState.idle) (hv : m.m_vertical_move_speed = 0)
    (hnone : m.m_motor_res.m_controller_type = ControllerType.none) :
    ∃ o', tickPlayerMotor gc sqrt move level command
        { motor := m,
          transform := some { m_position := ⟨0, 0, 0⟩, m_rotation := Quaternion.IDENTITY } } 1
        = some o' ∧
      o'.motor.m_jump_state = JumpState.idle ∧
      o'.motor.m_target_position = ⟨0, -5, 0⟩ ∧
      o'.transform = some { m_position := ⟨0, -5, 0⟩, m_rotation := Quaternion.IDENTITY } := by
  obtain ⟨o', h1, h2, h3, h4⟩ := tickPlayerMotor_forward_only gc sqrt move level command m
    ⟨0, 0, 0⟩ 1 hsqrt hvalid hf hb hl hr hj hs hidle hv hnone
  have hy : (0 : F) - m.m_move_speed * 1 = -5 := by rw [hspeed]; ring
  simp only [hy] at h3 h4
  exact ⟨o', h1, h2, h3, h4⟩

/-- Witness of C7 amended: the scenario over the reals with the real square
root, gravity 10 and the sample masks (forward is bit 0). -/
theorem scenario_forward_tick_witness :
    Real.sqrt 1 = 1 ∧ bitSet sampleCommand.forward 1 = true ∧
    ∃ o', tickPlayerMotor sampleCommand Real.sqrt sampleMove (some ⟨10⟩) 1
        { motor := sampleMotor ℝ,
          transform := some { m_position := ⟨0, 0, 0⟩, m_rotation := Quaternion.IDENTITY } } 1
        = some o' ∧
      o'.motor.m_jump_state = JumpState.idle ∧
      o'.motor.m_target_position = ⟨0, -5, 0⟩ ∧
      o'.transform = some { m_position := ⟨0, -5, 0⟩, m_rotation := Quaternion.IDENTITY } :=
  ⟨Real.sqrt_one, by decide,
    scenario_forward_tick sampleCommand Real.sqrt sampleMove (some ⟨10⟩) 1 (sampleMotor ℝ)
      Real.sqrt_one (by simp [sampleCommand]) (by decide) (by decide) (by decide) (by decide)
      (by decide) (by decide) rfl rfl rfl rfl⟩

/-- C8. Without an active level the speed update assigns the speed ratio (2 under
sprint, 1 otherwise) and changes nothing else: jump state, vertical speed and
latched ratio are as before. -/
theorem calculatedDesiredMoveSpeed_no_level (gc : GameCommand) (sqrt : F → F)
    (m : MotorComponent F) (command : Nat) (delta_time : F) :
    calculatedDesiredMoveSpeed gc sqrt none m command delta_time
      = { m with m_move_speed_ratio := if bitSet gc.sprint command then 2 else 1 } ∧
    (calculatedDesiredMoveSpeed gc sqrt none m command delta_time).m_jump_state
      = m.m_jump_state ∧
    (calculatedDesiredMoveSpeed gc sqrt none m command delta_time).m_vertical_move_speed
      = m.m_vertical_move_speed ∧
    (calculatedDesiredMoveSpeed gc sqrt none m command delta_time).m_jump_horizontal_speed_ratio
      = m.m_jump_horizontal_speed_ratio ∧
    (calculatedDesiredMoveSpeed gc sqrt none m command delta_time).m_move_speed_ratio
      = (if bitSet gc.sprint command then 2 else 1) :=
  ⟨rfl, rfl, rfl, rfl, rfl⟩

/-- C9. A command at or above the invalid sentinel makes `tickPlayerMotor` a
no-op: it succeeds (even without a transform component) and returns the object
as it was, motor state and transform alike. -/
theorem tickPlayerMotor_invalid_command (gc : GameCommand) (sqrt : F → F)
    (move : CharacterController F → Vector3 F → Vector3 F → Vector3 F)
    (level : Option (Level F)) (command : Nat) (o : GObject F) (delta_time : F)
    (hinvalid : gc.invalid ≤ command) :
    tickPlayerMotor gc sqrt move level command o delta_time = some o := by
  unfold tickPlayerMotor
  rw [if_pos hinvalid]

/-- Witness of C9: the sentinel itself as command, on the sample object in
mid-jump. -/
theorem tickPlayerMotor_invalid_command_witness :
    sampleCommand.invalid ≤ 2147483648 ∧
    tickPlayerMotor sampleCommand Real.sqrt sampleMove (some ⟨10⟩) 2147483648
      (sampleAirborne ℝ) 1 = some (sampleAirborne ℝ) :=
  ⟨by decide, tickPlayerMotor_invalid_command sampleCommand Real.sqrt sampleMove (some ⟨10⟩)
    2147483648 (sampleAirborne ℝ) 1 (by decide)⟩

/-- C10 amended. Direction accumulation while idle, for every facing rotation,
in any arithmetic in which `0 + a = a`, `a - a = 0` and `0 * a = 0` (exact
arithmetic, and binary32 on finite values): the resolved direction depends only
on which of the four direction bits are set; a command with forward and backward
both set resolves like one with neither set; a command with left and right both
set resolves like one with neither set when its forward and backward bits agree;
and whenever the forward bit equals the backward bit and the left bit equals the
right bit (forward+backward alone, left+right alone, all four, or none) the
direction is exactly the zero vector. -/
theorem calculatedDesiredMoveDirection_cancel {K : Type} [Zero K] [One K] [OfNat K 2] [Neg K]
    [Add K] [Sub K] [Mul K] [Div K] [DecidableEq K]
    (gc : GameCommand) (sqrt : K → K) (m : MotorComponent K) (q : Quaternion K) (c : Nat)
    (hadd : ∀ a : K, 0 + a = a) (hsub : ∀ a : K, a - a = 0) (hmul : ∀ a : K, 0 * a = 0)
    (hidle : m.m_jump_state = JumpState.idle) :
    (∀ c', bitSet gc.forward c' = bitSet gc.forward c →
        bitSet gc.backward c' = bitSet gc.backward c →
        bitSet gc.left c' = bitSet gc.left c → bitSet gc.right c' = bitSet gc.right c →
      (calculatedDesiredMoveDirection gc sqrt m c' q).m_desired_horizontal_move_direction
        = (calculatedDesiredMoveDirection gc sqrt m c q).m_desired_horizontal_move_direction) ∧
    (∀ c', bitSet gc.forward c = true → bitSet gc.backward c = true →
        bitSet gc.forward c' = false → bitSet gc.backward c' = false →
        bitSet gc.left c' = bitSet gc.left c → bitSet gc.right c' = bitSet gc.right c →
      (calculatedDesiredMoveDirection gc sqrt m c q).m_desired_horizontal_move_direction
        = (calculatedDesiredMoveDirection gc sqrt m c' q).m_desired_horizontal_move_direction) ∧
    (∀ c', bitSet gc.left c = true → bitSet gc.right c = true →
        bitSet gc.left c' = false → bitSet gc.right c' = false →
        bitSet gc.forward c' = bitSet gc.forward c →
        bitSet gc.backward c' = bitSet gc.backward c →
        bitSet gc.forward c = bitSet gc.backward c →
      (calculatedDesiredMoveDirection gc sqrt m c q).m_desired_horizontal_move_direction
        = (calculatedDesiredMoveDirection gc sqrt m c' q).m_desired_horizontal_move_direction) ∧
    (bitSet gc.forward c = bitSet gc.backward c → bitSet gc.left c = bitSet gc.right c →
      (calculatedDesiredMoveDirection gc sqrt m c q).m_desired_horizontal_move_direction
        = Vector3.ZERO) := by
  have hzas : ∀ v : Vector3 K, (Vector3.ZERO + v) - v = Vector3.ZERO := by
    intro v
    show (⟨(0 + v.x) - v.x, (0 + v.y) - v.y, (0 + v.z) - v.z⟩ : Vector3 K) = ⟨0, 0, 0⟩
    simp only [hadd, hsub]
  have hnz : (Vector3.ZERO : Vector3 K).normalise sqrt = Vector3.ZERO := by
    unfold Vector3.normalise
    by_cases h : sqrt ((Vector3.ZERO : Vector3 K).x * (Vector3.ZERO : Vector3 K).x
        + (Vector3.ZERO : Vector3 K).y * (Vector3.ZERO : Vector3 K).y
        + (Vector3.ZERO : Vector3 K).z * (Vector3.ZERO : Vector3 K).z) = 0
    · simp only [h, if_true]
    · simp only [h, if_false]
      show (⟨0 * _, 0 * _, 0 * _⟩ : Vector3 K) = ⟨0, 0, 0⟩
      simp only [hmul]
  refine ⟨?_, ?_, ?_, ?_⟩
  · intro c' h1 h2 h3 h4
    simp only [calculatedDesiredMoveDirection, hidle, if_true, h1, h2, h3, h4]
  · intro c' hf hb hf' hb' hl hr
    simp only [calculatedDesiredMoveDirection, hidle, if_true, hf, hb, hf', hb', hl, hr,
      hzas, Bool.false_eq_true, if_false]
  · intro c' hl hr hl' hr' hf hb hfb
    simp only [calculatedDesiredMoveDirection, hidle, if_true, hf, hb, hl', hr', hl, hr,
      Bool.false_eq_true, if_false]
    rw [hfb]
    cases bitSet gc.backward c <;>
      simp only [if_true, Bool.false_eq_true, if_false, hzas]
  · intro hfb hlr
    simp only [calculatedDesiredMoveDirection, hidle, if_true, hfb, hlr]
    cases bitSet gc.backward c <;> cases bitSet gc.right c <;>
      simp only [if_true, Bool.false_eq_true, if_false, hzas, hnz]

/-- Witness of C10 amended: over the reals, facing a half turn about the
vertical axis, the command forward+backward (bits 0 and 1) resolves to the zero
vector. -/
theorem calculatedDesiredMoveDirection_cancel_witness :
    (∀ a : ℝ, 0 + a = a) ∧ (∀ a : ℝ, a - a = 0) ∧ (∀ a : ℝ, 0 * a = 0) ∧
    (sampleMotor ℝ).m_jump_state = JumpState.idle ∧
    (calculatedDesiredMoveDirection sampleCommand Real.sqrt (sampleMotor ℝ) 3
        ⟨0, 0, 0, 1⟩).m_desired_horizontal_move_direction = Vector3.ZERO :=
  ⟨zero_add, sub_self, zero_mul, rfl,
    (calculatedDesiredMoveDirection_cancel sampleCommand Real.sqrt (sampleMotor ℝ)
      ⟨0, 0, 0, 1⟩ 3 zero_add sub_self zero_mul rfl).2.2.2 (by decide) (by decide)⟩

/-- C11. Displacement formula: `calculateDesiredDisplacement` sets the desired
displacement to direction * move speed * R * elapsed time + (0, 0, 1) * vertical
speed * elapsed time, with R the live speed ratio when idle and the latched
ratio when rising or falling, and changes no other field. -/
theorem calculateDesiredDisplacement_formula (m : MotorComponent F) (delta_time : F) :
    calculateDesiredDisplacement m delta_time =
      { m with m_desired_displacement :=
          m.m_desired_horizontal_move_direction * m.m_move_speed
            * (if m.m_jump_state = JumpState.idle then m.m_move_speed_ratio
               else m.m_jump_horizontal_speed_ratio) * delta_time +
          (⟨0, 0, 1⟩ : Vector3 F) * m.m_vertical_move_speed * delta_time } ∧
    (m.m_jump_state = JumpState.rising ∨ m.m_jump_state = JumpState.falling →
      (calculateDesiredDisplacement m delta_time).m_desired_displacement =
        m.m_desired_horizontal_move_direction * m.m_move_speed
            * m.m_jump_horizontal_speed_ratio * delta_time +
          (⟨0, 0, 1⟩ : Vector3 F) * m.m_vertical_move_speed * delta_time) := by
  constructor
  · unfold calculateDesiredDisplacement
    by_cases h : m.m_jump_state = JumpState.idle
    · simp only [if_pos h]; rfl
    · simp only [if_neg h]; rfl
  · intro h
    have hne : m.m_jump_state ≠ JumpState.idle := by
      rcases h with h | h <;> simp [h]
    unfold calculateDesiredDisplacement
    simp only [if_neg hne]
    rfl

/-- C15. Construction decides the controller once. A physics configuration gives
the controller kind physics and a controller built from its capsule shape; a
non-null configuration of any other kind gives the kind invalid and no
controller; after every construction a controller exists exactly when the kind
is physics, and move speed and jump height are those of the supplied resource. -/
theorem MotorComponent_construction (motor_param : MotorRes F) :
    (∀ capsule, motor_param.m_controller_config.m_type_name = "PhysicsControllerConfig" →
      motor_param.m_controller_config.m_instance
        = some (ControllerConfig.physicsControllerConfig capsule) →
      ∃ m, MotorComponent.MotorComponent motor_param = some m ∧
        m.m_motor_res.m_controller_type = ControllerType.physics ∧
        m.m_controller = some { m_capsule := capsule }) ∧
    (motor_param.m_controller_config.m_type_name ≠ "PhysicsControllerConfig" →
      motor_param.m_controller_config.m_instance ≠ none →
      ∃ m, MotorComponent.MotorComponent motor_param = some m ∧
        m.m_motor_res.m_controller_type = ControllerType.invalid ∧
        m.m_controller = none) ∧
    (∀ m, MotorComponent.MotorComponent motor_param = some m →
      (m.m_controller ≠ none ↔ m.m_motor_res.m_controller_type = ControllerType.physics) ∧
      m.m_move_speed = motor_param.m_move_speed ∧
      m.m_motor_res.m_move_speed = motor_param.m_move_speed ∧
      m.m_motor_res.m_jump_height = motor_param.m_jump_height) := by
  refine ⟨?_, ?_, ?_⟩
  · intro capsule hname hinst
    simp only [MotorComponent.MotorComponent, hname, hinst, if_true]
    exact ⟨_, rfl, rfl, rfl⟩
  · intro hname hinst
    simp only [MotorComponent.MotorComponent, if_neg hname, if_pos hinst]
    exact ⟨_, rfl, rfl, rfl⟩
  · intro m hm
    unfold MotorComponent.MotorComponent at hm
    by_cases hname : motor_param.m_controller_config.m_type_name = "PhysicsControllerConfig"
    · simp only [if_pos hname] at hm
      cases hinst : motor_param.m_controller_config.m_instance with
      | none => simp [hinst] at hm
      | some c =>
        cases c with
        | otherConfig => simp [hinst] at hm
        | physicsControllerConfig capsule =>
          simp only [hinst, Option.some.injEq] at hm
          subst hm
          simp
    · simp only [if_neg hname] at hm
      by_cases hinst : motor_param.m_controller_config.m_instance ≠ none
      · simp only [if_pos hinst, Option.some.injEq] at hm
        subst hm
        simp [MotorComponent.initial]
      · simp only [if_neg hinst, Option.some.injEq] at hm
        subst hm
        simp [MotorComponent.initial]

/-- C12. Ground-snap hand-over. On a tick on which the ground snap fires (the
speed update leaves the state falling and the stored target has z `≤ 0`) the
committed target and transform position have z exactly 0 and the state is idle
at the end of the tick. On the following tick, with an active level and a
recognised command: without the jump bit the vertical speed is 0 and the state
stays idle; with the jump bit a new jump is launched, rising with vertical speed
`sqrt (2 * jumpHeight * gravity)`. -/
theorem ground_snap_hand_over (gc : GameCommand) (sqrt : F → F)
    (move : CharacterController F → Vector3 F → Vector3 F → Vector3 F)
    (level : Option (Level F)) (command : Nat) (o : GObject F) (delta_time : F)
    (hwf : o.wellFormed) (hvalid : command < gc.invalid)
    (hsnap : (calculatedDesiredMoveSpeed gc sqrt level o.motor command delta_time).m_jump_state
        = JumpState.falling ∧ o.motor.m_target_position.z ≤ 0) :
    ∃ o1, tickPlayerMotor gc sqrt move level command o delta_time = some o1 ∧
      o1.motor.m_target_position.z = 0 ∧ o1.motor.m_jump_state = JumpState.idle ∧
      (∃ t1, o1.transform = some t1 ∧ t1.m_position.z = 0) ∧
      ∀ (level2 : Level F) (command2 : Nat) (q : Quaternion F) (delta_time2 : F),
        command2 < gc.invalid →
        ∃ o2, tickPlayerMotor gc sqrt move (some level2) command2 (o1.face q) delta_time2
            = some o2 ∧
          (bitSet gc.jump command2 = false →
            o2.motor.m_vertical_move_speed = 0 ∧ o2.motor.m_jump_state = JumpState.idle) ∧
          (bitSet gc.jump command2 = true →
            o2.motor.m_jump_state = JumpState.rising ∧
            o2.motor.m_vertical_move_speed
              = sqrt (2 * o.motor.m_motor_res.m_jump_height * level2.m_gravity)) := by
  obtain ⟨o1, ho1, hwf1, hres1, -, -⟩ :=
    tickPlayerMotor_wellFormed gc sqrt move level command o delta_time hwf
  obtain ⟨hidle1, hz1, ht1⟩ :=
    tickPlayerMotor_snap gc sqrt move level command o o1 delta_time hvalid hsnap ho1
  refine ⟨o1, ho1, hz1, hidle1, ht1, ?_⟩
  intro level2 command2 q delta_time2 hvalid2
  obtain ⟨o2, ho2, -, -, -, -⟩ :=
    tickPlayerMotor_wellFormed gc sqrt move (some level2) command2 (o1.face q) delta_time2
      (o1.face_wellFormed q hwf1).1
  have hj := tickPlayerMotor_jump_state gc sqrt move (some level2) command2 (o1.face q) o2
    delta_time2 hvalid2 ho2
  obtain ⟨t, -, -, -, hvs, -⟩ :=
    tickPlayerMotor_fields gc sqrt move (some level2) command2 (o1.face q) o2 delta_time2
      hvalid2 ho2
  have hm : (o1.face q).motor = o1.motor := rfl
  rw [hm] at hj hvs
  refine ⟨o2, ho2, ?_, ?_⟩
  · intro hjump
    have hr := calculatedDesiredMoveSpeed_rest gc sqrt level2 o1.motor command2 delta_time2
      hidle1 hjump
    rw [hr.1] at hj
    rw [hr.2.1] at hvs
    refine ⟨hvs, ?_⟩
    rw [hj]
    simp
  · intro hjump
    have hl := calculatedDesiredMoveSpeed_launch gc sqrt level2 o1.motor command2 delta_time2
      hidle1 hjump
    rw [hl.1] at hj
    rw [hl.2.1, hres1] at hvs
    constructor
    · rw [hj]
      simp
    · rw [hvs]
      congr 1
      ring

/-- Witness of C12: the sample falling object, one second under gravity 10. -/
theorem ground_snap_hand_over_witness :
    ∃ o1, tickPlayerMotor sampleCommand Real.sqrt sampleMove (some ⟨10⟩) 0 (sampleFalling ℝ) 1
        = some o1 ∧
      o1.motor.m_target_position.z = 0 ∧ o1.motor.m_jump_state = JumpState.idle := by
  obtain ⟨o1, h1, h2, h3, -, -⟩ := ground_snap_hand_over sampleCommand Real.sqrt sampleMove
    (some ⟨10⟩) 0 (sampleFalling ℝ) 1
    ⟨by simp [sampleFalling], by simp [sampleFalling, sampleMotor]⟩
    (by simp [sampleCommand])
    ⟨by
      rw [(calculatedDesiredMoveSpeed_air sampleCommand Real.sqrt ⟨10⟩ (sampleFalling ℝ).motor
        0 1 (by simp [sampleFalling])).2]
      simp [sampleFalling],
     by simp [sampleFalling, sampleMotor, Vector3.ZERO]⟩
  exact ⟨o1, h1, h2, h3⟩

/-- C13, as the code has it. The tick after a launch can end idle instead of
falling, because the ground snap fires when the target stored by the launch tick
has z `≤ 0`. (a) Jump height 0, gravity 10, two frames of one second from the
ground: the launch speed is `sqrt 0 = 0`, the launch commits height 0, and the
next tick ends idle. (b) Jump height 2, gravity 10, a launch frame of elapsed
time 0 and then a frame of one second: the launch commits height 0, and the next
tick ends idle. -/
theorem tick_after_launch_can_end_idle :
    (∃ o2, runTicks sampleCommand Real.sqrt sampleMove (sampleFlat ℝ)
        [⟨some ⟨10⟩, 16, Quaternion.IDENTITY, 1⟩, ⟨some ⟨10⟩, 0, Quaternion.IDENTITY, 1⟩]
        = some o2 ∧
      Real.sqrt (2 * (sampleFlat ℝ).motor.m_motor_res.m_jump_height * 10) ≤ 10 * 1 ∧
      o2.motor.m_jump_state = JumpState.idle ∧ o2.motor.m_jump_state ≠ JumpState.falling) ∧
    (∃ o2, runTicks sampleCommand Real.sqrt sampleMove (sampleGrounded ℝ)
        [⟨some ⟨10⟩, 16, Quaternion.IDENTITY, 0⟩, ⟨some ⟨10⟩, 0, Quaternion.IDENTITY, 1⟩]
        = some o2 ∧
      (sampleGrounded ℝ).motor.m_motor_res.m_jump_height = 2 ∧
      o2.motor.m_jump_state = JumpState.idle ∧ o2.motor.m_jump_state ≠ JumpState.falling) := by
  have h40 : Real.sqrt (2 * 2 * 10) ≤ 10 := by
    rw [Real.sqrt_le_iff]
    constructor <;> norm_num
  constructor
  · have hz : Real.sqrt ((sampleFlat ℝ).motor.m_motor_res.m_jump_height * 2
        * (⟨10⟩ : Level ℝ).m_gravity) = 0 := by
      show Real.sqrt (0 * 2 * 10) = 0
      simp
    obtain ⟨o2, h2, hj2⟩ := launch_then_snap sampleCommand Real.sqrt sampleMove (sampleFlat ℝ)
      ⟨some ⟨10⟩, 16, Quaternion.IDENTITY, 1⟩ ⟨some ⟨10⟩, 0, Quaternion.IDENTITY, 1⟩
      ⟨0, 0, 0⟩ Quaternion.IDENTITY ⟨10⟩ ⟨10⟩ rfl rfl rfl rfl rfl
      (by simp [sampleCommand]) (by simp [sampleCommand]) rfl (by decide)
      (by rw [hz]; norm_num) (by rw [hz]; norm_num)
    refine ⟨o2, h2, ?_, hj2, by rw [hj2]; simp⟩
    show Real.sqrt (2 * 0 * 10) ≤ 10 * 1
    simp
  · have hv : Real.sqrt ((sampleGrounded ℝ).motor.m_motor_res.m_jump_height * 2
        * (⟨10⟩ : Level ℝ).m_gravity) ≤ 10 := h40
    obtain ⟨o2, h2, hj2⟩ := launch_then_snap sampleCommand Real.sqrt sampleMove
      (sampleGrounded ℝ)
      ⟨some ⟨10⟩, 16, Quaternion.IDENTITY, 0⟩ ⟨some ⟨10⟩, 0, Quaternion.IDENTITY, 1⟩
      ⟨0, 0, 0⟩ Quaternion.IDENTITY ⟨10⟩ ⟨10⟩ rfl rfl rfl rfl rfl
      (by simp [sampleCommand]) (by simp [sampleCommand]) rfl (by decide)
      (by norm_num) (by
        have : (⟨10⟩ : Level ℝ).m_gravity * (1 : ℝ) = 10 := by norm_num
        show Real.sqrt ((sampleGrounded ℝ).motor.m_motor_res.m_jump_height * 2
          * (⟨10⟩ : Level ℝ).m_gravity) - (⟨10⟩ : Level ℝ).m_gravity * (1 : ℝ) ≤ 0
        rw [this]
        linarith)
    exact ⟨o2, h2, rfl, hj2, by rw [hj2]; simp⟩

/-- C13 amended. Jump over two ticks. A tick that starts idle with the jump bit
under an active level ends rising with vertical speed `sqrt (2 * jumpHeight *
gravity)`. On the following tick the speed update gives that speed minus
`gravity * elapsed time`, and the state falling whenever `gravity * elapsed
time` is at least the launch speed; the whole tick, with a recognised command,
then ends falling if the target stored by the launch tick has z `> 0` and idle
if it has z `≤ 0`. With jump height 2, gravity 10 and one second: launch speed
`sqrt 40`, then `sqrt 40 - 10`, which is negative and lies between -3.676 and
-3.675, and falling after the speed update. The square root is any function
that is non-negative and squares back on non-negative arguments. -/
theorem two_tick_jump (gc : GameCommand) (sqrt : F → F)
    (move : CharacterController F → Vector3 F → Vector3 F → Vector3 F)
    (level : Level F) (command : Nat) (o : GObject F) (delta_time : F)
    (hsqrt : ∀ x, 0 ≤ x → 0 ≤ sqrt x ∧ sqrt x * sqrt x = x)
    (hwf : o.wellFormed) (hvalid : command < gc.invalid)
    (hidle : o.motor.m_jump_state = JumpState.idle)
    (hjump : bitSet gc.jump command = true) :
    ∃ o1, tickPlayerMotor gc sqrt move (some level) command o delta_time = some o1 ∧
      o1.motor.m_jump_state = JumpState.rising ∧
      o1.motor.m_vertical_move_speed
        = sqrt (2 * o.motor.m_motor_res.m_jump_height * level.m_gravity) ∧
      ∀ (level2 : Level F) (command2 : Nat) (delta_time2 : F),
        (calculatedDesiredMoveSpeed gc sqrt (some level2) o1.motor command2
            delta_time2).m_vertical_move_speed
          = sqrt (2 * o.motor.m_motor_res.m_jump_height * level.m_gravity)
            - level2.m_gravity * delta_time2 ∧
        (sqrt (2 * o.motor.m_motor_res.m_jump_height * level.m_gravity)
            ≤ level2.m_gravity * delta_time2 →
          (calculatedDesiredMoveSpeed gc sqrt (some level2) o1.motor command2
            delta_time2).m_jump_state = JumpState.falling) ∧
        (∀ q : Quaternion F, command2 < gc.invalid →
          ∃ o2, tickPlayerMotor gc sqrt move (some level2) command2 (o1.face q) delta_time2
              = some o2 ∧
            o2.motor.m_vertical_move_speed
              = sqrt (2 * o.motor.m_motor_res.m_jump_height * level.m_gravity)
                - level2.m_gravity * delta_time2 ∧
            (sqrt (2 * o.motor.m_motor_res.m_jump_height * level.m_gravity)
                ≤ level2.m_gravity * delta_time2 →
              (0 < o1.motor.m_target_position.z → o2.motor.m_jump_state = JumpState.falling) ∧
              (o1.motor.m_target_position.z ≤ 0 → o2.motor.m_jump_state = JumpState.idle))) ∧
        (o.motor.m_motor_res.m_jump_height = 2 → level.m_gravity = 10 →
          level2.m_gravity = 10 → delta_time2 = 1 →
          o1.motor.m_vertical_move_speed = sqrt 40 ∧
          (calculatedDesiredMoveSpeed gc sqrt (some level2) o1.motor command2
            delta_time2).m_vertical_move_speed = sqrt 40 - 10 ∧
          sqrt 40 - 10 < 0 ∧ -3676 / 1000 < sqrt 40 - 10 ∧ sqrt 40 - 10 < -3675 / 1000 ∧
          (calculatedDesiredMoveSpeed gc sqrt (some level2) o1.motor command2
            delta_time2).m_jump_state = JumpState.falling) := by
  obtain ⟨o1, ho1, hwf1, hres1, -, -⟩ :=
    tickPlayerMotor_wellFormed gc sqrt move (some level) command o delta_time hwf
  have hl := calculatedDesiredMoveSpeed_launch gc sqrt level o.motor command delta_time
    hidle hjump
  have hj := tickPlayerMotor_jump_state gc sqrt move (some level) command o o1 delta_time
    hvalid ho1
  rw [hl.1] at hj
  have hrise : o1.motor.m_jump_state = JumpState.rising := by
    rw [hj]; simp
  obtain ⟨t, -, -, -, hvs, -⟩ :=
    tickPlayerMotor_fields gc sqrt move (some level) command o o1 delta_time hvalid ho1
  have hcomm : o.motor.m_motor_res.m_jump_height * 2 * level.m_gravity
      = 2 * o.motor.m_motor_res.m_jump_height * level.m_gravity := by ring
  rw [hl.2.1, hcomm] at hvs
  refine ⟨o1, ho1, hrise, hvs, ?_⟩
  intro level2 command2 delta_time2
  have hne : o1.motor.m_jump_state ≠ JumpState.idle := by rw [hrise]; simp
  have ha := calculatedDesiredMoveSpeed_air gc sqrt level2 o1.motor command2 delta_time2 hne
  rw [hvs] at ha
  refine ⟨ha.1, ?_, ?_, ?_⟩
  · intro hle
    rw [ha.2, if_pos (sub_nonpos.mpr hle)]
  · intro q hvalid2
    obtain ⟨o2, ho2, -, -, -, -⟩ :=
      tickPlayerMotor_wellFormed gc sqrt move (some level2) command2 (o1.face q) delta_time2
        (o1.face_wellFormed q hwf1).1
    have hj2 := tickPlayerMotor_jump_state gc sqrt move (some level2) command2 (o1.face q) o2
      delta_time2 hvalid2 ho2
    obtain ⟨t2, -, -, -, hvs2, -⟩ :=
      tickPlayerMotor_fields gc sqrt move (some level2) command2 (o1.face q) o2 delta_time2
        hvalid2 ho2
    have hm : (o1.face q).motor = o1.motor := rfl
    rw [hm] at hj2 hvs2
    rw [ha.1] at hvs2
    refine ⟨o2, ho2, hvs2, ?_⟩
    intro hle
    rw [ha.2, if_pos (sub_nonpos.mpr hle)] at hj2
    constructor
    · intro hz
      rw [hj2, if_neg (fun h => absurd h.2 (not_le.mpr hz))]
    · intro hz
      rw [hj2, if_pos ⟨rfl, hz⟩]
  · intro hh hg hg2 hdt
    have h40 : 2 * o.motor.m_motor_res.m_jump_height * level.m_gravity = 40 := by
      rw [hh, hg]; norm_num
    subst hdt
    rw [h40] at ha hvs
    rw [hg2, mul_one] at ha
    obtain ⟨hs0, hss⟩ := hsqrt 40 (by norm_num)
    have hlt : sqrt 40 - 10 < 0 := by nlinarith
    refine ⟨hvs, ha.1, hlt, ?_, ?_, ?_⟩
    · by_contra hc
      have hc' : sqrt 40 ≤ 6324 / 1000 := by linarith [not_lt.mp hc]
      nlinarith
    · by_contra hc
      have hc' : 6325 / 1000 ≤ sqrt 40 := by linarith [not_lt.mp hc]
      nlinarith
    · rw [ha.2, if_pos (le_of_lt hlt)]

/-- Witness of C13 amended: the sample object at rest, jump height 2, under
gravity 10, with the real square root; the command is the jump bit. -/
theorem two_tick_jump_witness :
    ∃ o1, tickPlayerMotor sampleCommand Real.sqrt sampleMove (some ⟨10⟩) 16 (sampleGrounded ℝ) 1
        = some o1 ∧
      o1.motor.m_jump_state = JumpState.rising ∧
      o1.motor.m_vertical_move_speed = Real.sqrt 40 ∧
      (calculatedDesiredMoveSpeed sampleCommand Real.sqrt (some ⟨10⟩) o1.motor 0
          1).m_vertical_move_speed = Real.sqrt 40 - 10 ∧
      Real.sqrt 40 - 10 < 0 ∧
      (calculatedDesiredMoveSpeed sampleCommand Real.sqrt (some ⟨10⟩) o1.motor 0
          1).m_jump_state = JumpState.falling := by
  obtain ⟨o1, h1, h2, -, h4⟩ := two_tick_jump sampleCommand Real.sqrt sampleMove ⟨10⟩ 16
    (sampleGrounded ℝ) 1 (fun x hx => ⟨Real.sqrt_nonneg x, Real.mul_self_sqrt hx⟩)
    ⟨by simp [sampleGrounded], by simp [sampleGrounded, sampleMotor]⟩
    (by simp [sampleCommand]) rfl (by decide)
  obtain ⟨-, -, -, h5⟩ := h4 ⟨10⟩ 0 1
  obtain ⟨h6, h7, h8, -, -, h9⟩ := h5 rfl rfl rfl rfl
  exact ⟨o1, h1, h2, h6, h7, h8, h9⟩

/-- C14, as the code has it. (a) In the sample jump continued by one more frame
the ground snap fires and leaves the state idle with vertical speed -2; on a
following tick without a level the state handed to `calculateDesiredDisplacement`
is idle with vertical speed -2, and the displacement has z = -2. (b) From rest,
with a level, only the forward bit and a facing rotation pitched about the x
axis, that state is idle with vertical speed 0, yet the displacement has
z = -24/5, the z of the resolved direction times the move speed. -/
theorem grounded_vertical_speed_can_be_nonzero :
    (∃ o3, runTicks sampleCommand Real.sqrt sampleMove (sampleGrounded ℝ)
        ([⟨some ⟨1⟩, 16, Quaternion.IDENTITY, 1⟩, ⟨some ⟨1⟩, 0, Quaternion.IDENTITY, 3⟩]
          ++ [⟨some ⟨1⟩, 0, Quaternion.IDENTITY, 1⟩]) = some o3 ∧
      (atDisplacement sampleCommand Real.sqrt none o3.motor 0 1
        Quaternion.IDENTITY).m_jump_state = JumpState.idle ∧
      (atDisplacement sampleCommand Real.sqrt none o3.motor 0 1
        Quaternion.IDENTITY).m_vertical_move_speed = -2 ∧
      (calculateDesiredDisplacement
        (atDisplacement sampleCommand Real.sqrt none o3.motor 0 1 Quaternion.IDENTITY)
        1).m_desired_displacement.z = -2) ∧
    ((atDisplacement sampleCommand Real.sqrt (some ⟨1⟩) (sampleGrounded ℝ).motor 1 1
        ⟨3 / 5, 4 / 5, 0, 0⟩).m_jump_state = JumpState.idle ∧
      (atDisplacement sampleCommand Real.sqrt (some ⟨1⟩) (sampleGrounded ℝ).motor 1 1
        ⟨3 / 5, 4 / 5, 0, 0⟩).m_vertical_move_speed = 0 ∧
      (calculateDesiredDisplacement
        (atDisplacement sampleCommand Real.sqrt (some ⟨1⟩) (sampleGrounded ℝ).motor 1 1
          ⟨3 / 5, 4 / 5, 0, 0⟩) 1).m_desired_displacement.z = -24 / 5) := by
  constructor
  · obtain ⟨o2, h2, ht2, hres2, hdir2, hvs2, hj2, htg2⟩ := sampleGrounded_jump
    have hne2 : o2.motor.m_jump_state ≠ JumpState.idle := by rw [hj2]; simp
    have ha := calculatedDesiredMoveSpeed_air sampleCommand Real.sqrt ⟨1⟩ o2.motor 0 1 hne2
    rw [hvs2, hj2] at ha
    have hvs3 : (calculatedDesiredMoveSpeed sampleCommand Real.sqrt (some ⟨1⟩) o2.motor 0
        1).m_vertical_move_speed = -2 := by
      rw [ha.1]; norm_num
    have hjs3 : (calculatedDesiredMoveSpeed sampleCommand Real.sqrt (some ⟨1⟩) o2.motor 0
        1).m_jump_state = JumpState.falling := by
      rw [ha.2]; simp
    obtain ⟨o3, h3, -, -, hdir3, hvs3', hj3, -⟩ :=
      frame_none_vertical sampleCommand Real.sqrt sampleMove o2
        ⟨some ⟨1⟩, 0, Quaternion.IDENTITY, 1⟩ o2.motor.m_target_position Quaternion.IDENTITY
        ht2 (by rw [hres2]; rfl) (by simp [sampleCommand]) hdir2 (by rw [hjs3]; simp)
    simp only [hvs3, hjs3, htg2] at hvs3' hj3
    have hsnap : (-1 : ℝ) ≤ 0 := by norm_num
    simp only [hsnap, and_self, if_true] at hj3
    have hrun : runTicks sampleCommand Real.sqrt sampleMove (sampleGrounded ℝ)
        ([⟨some ⟨1⟩, 16, Quaternion.IDENTITY, 1⟩, ⟨some ⟨1⟩, 0, Quaternion.IDENTITY, 3⟩]
          ++ [⟨some ⟨1⟩, 0, Quaternion.IDENTITY, 1⟩]) = some o3 := by
      rw [runTicks_append, h2]
      simp only [Option.some_bind, runTicks_singleton]
      exact h3
    have hd := calculatedDesiredMoveDirection_frame sampleCommand Real.sqrt
      (calculatedDesiredMoveSpeed sampleCommand Real.sqrt none o3.motor 0 1) 0
      Quaternion.IDENTITY
    have hjs : (atDisplacement sampleCommand Real.sqrt none o3.motor 0 1
        Quaternion.IDENTITY).m_jump_state = JumpState.idle := by
      unfold atDisplacement
      rw [hd.2.2.2.2.2.2.1, calculatedDesiredMoveSpeed_skip]
      exact hj3
    have hvs : (atDisplacement sampleCommand Real.sqrt none o3.motor 0 1
        Quaternion.IDENTITY).m_vertical_move_speed = -2 := by
      unfold atDisplacement
      rw [hd.2.2.2.2.1, calculatedDesiredMoveSpeed_skip]
      exact hvs3'
    have hdz : (atDisplacement sampleCommand Real.sqrt none o3.motor 0 1
        Quaternion.IDENTITY).m_desired_horizontal_move_direction = Vector3.ZERO := by
      unfold atDisplacement
      have hi : (calculatedDesiredMoveSpeed sampleCommand Real.sqrt none o3.motor 0
          1).m_jump_state = JumpState.idle := by
        rw [calculatedDesiredMoveSpeed_skip]; exact hj3
      rw [calculatedDesiredMoveDirection_combination sampleCommand Real.sqrt _ _ 0 hi]
      have hb : ∀ k, bitSet k 0 = false := by
        intro k
        simp [bitSet]
      simp only [hb, Bool.false_eq_true, if_false, sub_self, zero_mul, add_zero]
      exact Vector3.normalise_zero Real.sqrt
    refine ⟨o3, hrun, hjs, hvs, ?_⟩
    rw [calculateDesiredDisplacement_value, hvs, hdz]
    simp [Vector3.add_eq, Vector3.scale_eq, Vector3.ZERO, Vector3.UNIT_Z]
  · have hr := calculatedDesiredMoveSpeed_rest sampleCommand Real.sqrt ⟨1⟩
      (sampleGrounded ℝ).motor 1 1 rfl (by decide)
    have hs := calculatedDesiredMoveSpeed_frame sampleCommand Real.sqrt (some ⟨1⟩)
      (sampleGrounded ℝ).motor 1 1
    have hd := calculatedDesiredMoveDirection_frame sampleCommand Real.sqrt
      (calculatedDesiredMoveSpeed sampleCommand Real.sqrt (some ⟨1⟩) (sampleGrounded ℝ).motor
        1 1) 1 (⟨3 / 5, 4 / 5, 0, 0⟩ : Quaternion ℝ)
    have hjs : (atDisplacement sampleCommand Real.sqrt (some ⟨1⟩) (sampleGrounded ℝ).motor 1 1
        ⟨3 / 5, 4 / 5, 0, 0⟩).m_jump_state = JumpState.idle := by
      unfold atDisplacement
      rw [hd.2.2.2.2.2.2.1]; exact hr.1
    have hvs : (atDisplacement sampleCommand Real.sqrt (some ⟨1⟩) (sampleGrounded ℝ).motor 1 1
        ⟨3 / 5, 4 / 5, 0, 0⟩).m_vertical_move_speed = 0 := by
      unfold atDisplacement
      rw [hd.2.2.2.2.1]; exact hr.2.1
    have hsp : (atDisplacement sampleCommand Real.sqrt (some ⟨1⟩) (sampleGrounded ℝ).motor 1 1
        ⟨3 / 5, 4 / 5, 0, 0⟩).m_move_speed = 5 := by
      unfold atDisplacement
      rw [hd.2.2.1, hs.2.2.1]; rfl
    have hra : (atDisplacement sampleCommand Real.sqrt (some ⟨1⟩) (sampleGrounded ℝ).motor 1 1
        ⟨3 / 5, 4 / 5, 0, 0⟩).m_move_speed_ratio = 1 := by
      unfold atDisplacement
      rw [hd.2.2.2.1, calculatedDesiredMoveSpeed_ratio]
      have h5 : bitSet sampleCommand.sprint 1 = false := by decide
      simp [h5]
    have hdir : (atDisplacement sampleCommand Real.sqrt (some ⟨1⟩) (sampleGrounded ℝ).motor 1 1
        ⟨3 / 5, 4 / 5, 0, 0⟩).m_desired_horizontal_move_direction
        = ⟨0, 7 / 25, -24 / 25⟩ := by
      unfold atDisplacement
      rw [calculatedDesiredMoveDirection_combination sampleCommand Real.sqrt _ _ 1 hr.1]
      have h1 : bitSet sampleCommand.forward 1 = true := by decide
      have h2 : bitSet sampleCommand.backward 1 = false := by decide
      have h3 : bitSet sampleCommand.left 1 = false := by decide
      have h4 : bitSet sampleCommand.right 1 = false := by decide
      simp only [h1, h2, h3, h4, if_true, Bool.false_eq_true, if_false, sub_zero, sub_self,
        zero_mul, add_zero, one_mul]
      have hf : (⟨3 / 5, 4 / 5, 0, 0⟩ : Quaternion ℝ).rotate Vector3.NEGATIVE_UNIT_Y
          = ⟨0, 7 / 25, -24 / 25⟩ := by
        simp [Quaternion.rotate, Vector3.crossProduct, Vector3.add_eq, Vector3.scale_eq,
          Vector3.NEGATIVE_UNIT_Y]
        norm_num
      rw [hf]
      have hlen : Real.sqrt ((0 : ℝ) * 0 + 7 / 25 * (7 / 25) + -24 / 25 * (-24 / 25)) = 1 := by
        have : ((0 : ℝ) * 0 + 7 / 25 * (7 / 25) + -24 / 25 * (-24 / 25)) = 1 := by norm_num
        rw [this, Real.sqrt_one]
      simp only [Vector3.normalise, hlen, one_ne_zero, if_false]
      norm_num
    refine ⟨hjs, hvs, ?_⟩
    rw [calculateDesiredDisplacement_value, hjs, hvs, hsp, hra, hdir]
    simp [Vector3.add_eq, Vector3.scale_eq, Vector3.UNIT_Z]
    norm_num

/-- C14 amended. On a tick with an active level, from every state (reachable or
not): if the state handed to `calculateDesiredDisplacement` is idle, its vertical
speed is 0, the displacement is the horizontal term alone, direction * move
speed * speed ratio * elapsed time, and its z is zero when the facing rotation
is about the vertical axis (quaternion x = y = 0). -/
theorem grounded_vertical_term_vanishes (gc : GameCommand) (sqrt : F → F) (level : Level F)
    (m : MotorComponent F) (command : Nat) (delta_time : F) (q : Quaternion F)
    (hidle : (atDisplacement gc sqrt (some level) m command delta_time q).m_jump_state
      = JumpState.idle) :
    (atDisplacement gc sqrt (some level) m command delta_time q).m_vertical_move_speed = 0 ∧
    (calculateDesiredDisplacement (atDisplacement gc sqrt (some level) m command delta_time q)
        delta_time).m_desired_displacement =
      (atDisplacement gc sqrt (some level) m command delta_time
          q).m_desired_horizontal_move_direction
        * (atDisplacement gc sqrt (some level) m command delta_time q).m_move_speed
        * (atDisplacement gc sqrt (some level) m command delta_time q).m_move_speed_ratio
        * delta_time + (Vector3.UNIT_Z : Vector3 F) * (0 : F) * delta_time ∧
    (calculateDesiredDisplacement (atDisplacement gc sqrt (some level) m command delta_time q)
        delta_time).m_desired_displacement.z =
      (atDisplacement gc sqrt (some level) m command delta_time
          q).m_desired_horizontal_move_direction.z
        * (atDisplacement gc sqrt (some level) m command delta_time q).m_move_speed
        * (atDisplacement gc sqrt (some level) m command delta_time q).m_move_speed_ratio
        * delta_time ∧
    (q.x = 0 → q.y = 0 →
      (calculateDesiredDisplacement (atDisplacement gc sqrt (some level) m command delta_time q)
        delta_time).m_desired_displacement.z = 0) := by
  have hd := calculatedDesiredMoveDirection_frame gc sqrt
    (calculatedDesiredMoveSpeed gc sqrt (some level) m command delta_time) command q
  have hidle1 : (calculatedDesiredMoveSpeed gc sqrt (some level) m command
      delta_time).m_jump_state = JumpState.idle := by
    rw [← hd.2.2.2.2.2.2.1]; exact hidle
  have hvs : (atDisplacement gc sqrt (some level) m command delta_time
      q).m_vertical_move_speed = 0 := by
    unfold atDisplacement
    rw [hd.2.2.2.2.1]
    exact calculatedDesiredMoveSpeed_grounded gc sqrt level m command delta_time hidle1
  have hdisp : (calculateDesiredDisplacement
      (atDisplacement gc sqrt (some level) m command delta_time q)
        delta_time).m_desired_displacement =
      (atDisplacement gc sqrt (some level) m command delta_time
          q).m_desired_horizontal_move_direction
        * (atDisplacement gc sqrt (some level) m command delta_time q).m_move_speed
        * (atDisplacement gc sqrt (some level) m command delta_time q).m_move_speed_ratio
        * delta_time + (Vector3.UNIT_Z : Vector3 F) * (0 : F) * delta_time := by
    rw [calculateDesiredDisplacement_value, if_pos hidle, hvs]
  have hz : (calculateDesiredDisplacement
      (atDisplacement gc sqrt (some level) m command delta_time q)
        delta_time).m_desired_displacement.z =
      (atDisplacement gc sqrt (some level) m command delta_time
          q).m_desired_horizontal_move_direction.z
        * (atDisplacement gc sqrt (some level) m command delta_time q).m_move_speed
        * (atDisplacement gc sqrt (some level) m command delta_time q).m_move_speed_ratio
        * delta_time := by
    rw [hdisp]
    simp [Vector3.add_eq, Vector3.scale_eq, Vector3.UNIT_Z]
  refine ⟨hvs, hdisp, hz, ?_⟩
  intro hx hy
  rw [hz]
  have hdz : (atDisplacement gc sqrt (some level) m command delta_time
      q).m_desired_horizontal_move_direction.z = 0 := by
    unfold atDisplacement
    rw [calculatedDesiredMoveDirection_combination gc sqrt _ q command hidle1]
    apply Vector3.normalise_z
    simp [Quaternion.rotate, Vector3.crossProduct, Vector3.add_eq, Vector3.scale_eq,
      Vector3.NEGATIVE_UNIT_Y, Vector3.UNIT_X, hx, hy]
  rw [hdz]
  simp

/-- Witness of C14 amended: the sample object at rest, gravity 1, only the
forward bit, identity rotation. -/
theorem grounded_vertical_term_vanishes_witness :
    (atDisplacement sampleCommand Real.sqrt (some ⟨1⟩) (sampleGrounded ℝ).motor 1 1
        Quaternion.IDENTITY).m_jump_state = JumpState.idle ∧
    (atDisplacement sampleCommand Real.sqrt (some ⟨1⟩) (sampleGrounded ℝ).motor 1 1
        Quaternion.IDENTITY).m_vertical_move_speed = 0 ∧
    (calculateDesiredDisplacement
        (atDisplacement sampleCommand Real.sqrt (some ⟨1⟩) (sampleGrounded ℝ).motor 1 1
          Quaternion.IDENTITY) 1).m_desired_displacement.z = 0 := by
  have hidle : (atDisplacement sampleCommand Real.sqrt (some ⟨1⟩) (sampleGrounded ℝ).motor 1 1
      Quaternion.IDENTITY).m_jump_state = JumpState.idle := by
    unfold atDisplacement
    rw [(calculatedDesiredMoveDirection_frame sampleCommand Real.sqrt _ 1
      Quaternion.IDENTITY).2.2.2.2.2.2.1]
    exact (calculatedDesiredMoveSpeed_rest sampleCommand Real.sqrt ⟨1⟩
      (sampleGrounded ℝ).motor 1 1 rfl (by decide)).1
  exact ⟨hidle,
    (grounded_vertical_term_vanishes sampleCommand Real.sqrt ⟨1⟩ (sampleGrounded ℝ).motor 1 1
      Quaternion.IDENTITY hidle).1,
    (grounded_vertical_term_vanishes sampleCommand Real.sqrt ⟨1⟩ (sampleGrounded ℝ).motor 1 1
      Quaternion.IDENTITY hidle).2.2.2 rfl rfl⟩

/-- C17, evaluated on the code. From rest at the origin with no controller
(stored target at the origin, jump height 2), a jump under gravity 1 with a
frame of one second and then a frame of three seconds commits the target and the
transform position at height -1: the snap test reads the height stored by the
previous frame, which was 2. -/
theorem ground_snap_lags_one_frame :
    (sampleGrounded ℝ).motor.m_jump_state = JumpState.idle ∧
    (sampleGrounded ℝ).motor.m_vertical_move_speed = 0 ∧
    (sampleGrounded ℝ).motor.m_motor_res.m_controller_type = ControllerType.none ∧
    ∃ o2 t2, runTicks sampleCommand Real.sqrt sampleMove (sampleGrounded ℝ)
        [⟨some ⟨1⟩, 16, Quaternion.IDENTITY, 1⟩, ⟨some ⟨1⟩, 0, Quaternion.IDENTITY, 3⟩]
        = some o2 ∧
      o2.motor.m_target_position = ⟨0, 0, -1⟩ ∧
      o2.motor.m_target_position.z < 0 ∧
      o2.transform = some t2 ∧ t2.m_position.z < 0 := by
  obtain ⟨o2, h2, ht2, -, -, -, -, htg2⟩ := sampleGrounded_jump
  refine ⟨rfl, rfl, rfl, o2, _, h2, htg2, ?_, ht2, ?_⟩
  · rw [htg2]; norm_num
  · show o2.motor.m_target_position.z < 0
    rw [htg2]; norm_num

/-- C20. Shape of the jump state machine over one successful `tickPlayerMotor`,
for every state, command, level, elapsed time and controller kind: idle never
becomes falling; falling never becomes rising; rising is entered only from idle,
with the jump bit set, a level present and a recognised command; and idle is
re-entered from rising or falling only when the target stored before the tick
has z `≤ 0`. -/
theorem jump_state_machine_shape (gc : GameCommand) (sqrt : F → F)
    (move : CharacterController F → Vector3 F → Vector3 F → Vector3 F)
    (level : Option (Level F)) (command : Nat) (o o' : GObject F) (delta_time : F)
    (h : tickPlayerMotor gc sqrt move level command o delta_time = some o') :
    (o.motor.m_jump_state = JumpState.idle → o'.motor.m_jump_state ≠ JumpState.falling) ∧
    (o.motor.m_jump_state = JumpState.falling → o'.motor.m_jump_state ≠ JumpState.rising) ∧
    (o'.motor.m_jump_state = JumpState.rising → o.motor.m_jump_state ≠ JumpState.rising →
      o.motor.m_jump_state = JumpState.idle ∧ bitSet gc.jump command = true ∧
      level ≠ none ∧ command < gc.invalid) ∧
    (o'.motor.m_jump_state = JumpState.idle → o.motor.m_jump_state ≠ JumpState.idle →
      o.motor.m_target_position.z ≤ 0) := by
  by_cases hvalid : command < gc.invalid
  · have hj := tickPlayerMotor_jump_state gc sqrt move level command o o' delta_time hvalid h
    have ht := calculatedDesiredMoveSpeed_transitions gc sqrt level o.motor command delta_time
    by_cases hs : (calculatedDesiredMoveSpeed gc sqrt level o.motor command
        delta_time).m_jump_state = JumpState.falling ∧ o.motor.m_target_position.z ≤ 0
    · rw [if_pos hs] at hj
      refine ⟨fun _ => by rw [hj]; simp, fun _ => by rw [hj]; simp, ?_, fun _ _ => hs.2⟩
      intro hr
      rw [hj] at hr
      exact absurd hr (by simp)
    · rw [if_neg hs] at hj
      refine ⟨?_, ?_, ?_, ?_⟩
      · intro hidle
        rw [hj]
        rcases ht.1 hidle with h1 | h1
        · rw [h1]; simp
        · rw [h1.1]; simp
      · intro hf
        rw [hj, ht.2.2 hf]
        simp
      · intro hr hnr
        rw [hj] at hr
        cases hjs : o.motor.m_jump_state with
        | idle =>
          rcases ht.1 hjs with h1 | h1
          · rw [h1] at hr
            exact absurd hr (by simp)
          · exact ⟨rfl, h1.2.1, h1.2.2, hvalid⟩
        | rising => exact absurd hjs hnr
        | falling =>
          rw [ht.2.2 hjs] at hr
          exact absurd hr (by simp)
      · intro hi hni
        rw [hj] at hi
        exact absurd hi
          (calculatedDesiredMoveSpeed_airborne_stays gc sqrt level o.motor command delta_time
            hni).1
  · unfold tickPlayerMotor at h
    rw [if_pos (not_lt.mp hvalid)] at h
    have ho : o' = o := (Option.some.inj h).symm
    subst ho
    refine ⟨?_, ?_, ?_, ?_⟩
    · intro hi; rw [hi]; simp
    · intro hf; rw [hf]; simp
    · intro hr hnr; exact absurd hr hnr
    · intro hi hni; exact absurd hi hni

/-- Witness of C20: a rising object whose stored target is on the ground plane
reaches idle within a single tick of one second under gravity 10, by way of
falling and the ground snap. -/
theorem jump_state_machine_shape_witness :
    ∃ o', tickPlayerMotor sampleCommand Real.sqrt sampleMove (some ⟨10⟩) 0 (sampleLiftOff ℝ) 1
        = some o' ∧
      (sampleLiftOff ℝ).motor.m_jump_state = JumpState.rising ∧
      o'.motor.m_jump_state = JumpState.idle ∧
      (sampleLiftOff ℝ).motor.m_target_position.z ≤ 0 := by
  obtain ⟨o', ho', -, -, -, -⟩ := tickPlayerMotor_wellFormed sampleCommand Real.sqrt sampleMove
    (some ⟨10⟩) 0 (sampleLiftOff ℝ) 1
    ⟨by simp [sampleLiftOff], by simp [sampleLiftOff, sampleMotor]⟩
  have hj := tickPlayerMotor_jump_state sampleCommand Real.sqrt sampleMove (some ⟨10⟩) 0
    (sampleLiftOff ℝ) o' 1 (by simp [sampleCommand]) ho'
  have ha := calculatedDesiredMoveSpeed_air sampleCommand Real.sqrt ⟨10⟩ (sampleLiftOff ℝ).motor
    0 1 (by simp [sampleLiftOff])
  have hv : (sampleLiftOff ℝ).motor.m_vertical_move_speed - (⟨10⟩ : Level ℝ).m_gravity * 1 ≤ 0 := by
    show (1 : ℝ) - 10 * 1 ≤ 0
    norm_num
  rw [ha.2, if_pos hv] at hj
  have hz : (sampleLiftOff ℝ).motor.m_target_position.z ≤ 0 := by
    show (0 : ℝ) ≤ 0
    exact le_refl 0
  rw [if_pos ⟨rfl, hz⟩] at hj
  exact ⟨o', ho', rfl, hj,
    (jump_state_machine_shape sampleCommand Real.sqrt sampleMove (some ⟨10⟩) 0
      (sampleLiftOff ℝ) o' 1 ho').2.2.2 hj (by simp [sampleLiftOff])⟩

/-- C18. Sign of the vertical speed tracks the jump phase. Start idle with
vertical speed 0 and a non-negative jump height, run any frames with
non-negative elapsed times and gravities (level present or absent, any commands
and rotations): the run succeeds, and after the speed update of any further
such tick, falling implies vertical speed `≤ 0` and rising implies vertical
speed `≥ 0`. The square root is any function that is non-negative on
non-negative arguments. -/
theorem vertical_speed_sign_tracks_phase (gc : GameCommand) (sqrt : F → F)
    (move : CharacterController F → Vector3 F → Vector3 F → Vector3 F)
    (o0 : GObject F) (ticks : List (TickInput F)) (next : TickInput F)
    (hsqrt : ∀ x, 0 ≤ x → 0 ≤ sqrt x) (hwf : o0.wellFormed)
    (hidle : o0.motor.m_jump_state = JumpState.idle)
    (hvs : o0.motor.m_vertical_move_speed = 0)
    (hh : 0 ≤ o0.motor.m_motor_res.m_jump_height)
    (hticks : ∀ i ∈ ticks ++ [next],
      0 ≤ i.delta_time ∧ ∀ l, i.level = some l → 0 ≤ l.m_gravity) :
    ∃ o, runTicks gc sqrt move o0 ticks = some o ∧
      ((calculatedDesiredMoveSpeed gc sqrt next.level o.motor next.command
          next.delta_time).m_jump_state = JumpState.falling →
        (calculatedDesiredMoveSpeed gc sqrt next.level o.motor next.command
          next.delta_time).m_vertical_move_speed ≤ 0) ∧
      ((calculatedDesiredMoveSpeed gc sqrt next.level o.motor next.command
          next.delta_time).m_jump_state = JumpState.rising →
        0 ≤ (calculatedDesiredMoveSpeed gc sqrt next.level o.motor next.command
          next.delta_time).m_vertical_move_speed) := by
  have h0 : o0.motor.signAgrees := by
    unfold MotorComponent.signAgrees
    rw [hidle, hvs]
    exact ⟨fun _ => le_refl 0, fun _ => le_refl 0⟩
  obtain ⟨o, ho, -, hs, hres⟩ := runTicks_signAgrees gc sqrt move ticks o0 hsqrt hwf hh
    (fun i hi => hticks i (by simp [hi])) h0
  have hn := hticks next (by simp)
  have h1 := calculatedDesiredMoveSpeed_signAgrees gc sqrt next.level o.motor next.command
    next.delta_time hsqrt (by rw [hres]; exact hh) hn.2 hn.1 hs
  exact ⟨o, ho, h1.1, h1.2⟩

/-- Witness of C18: the sample object at rest, a jump frame of one second under
gravity 1, then the speed update of a frame of three seconds: falling with
vertical speed `≤ 0`. -/
theorem vertical_speed_sign_tracks_phase_witness :
    ∃ o, runTicks sampleCommand Real.sqrt sampleMove (sampleGrounded ℝ)
        [⟨some ⟨1⟩, 16, Quaternion.IDENTITY, 1⟩] = some o ∧
      ((calculatedDesiredMoveSpeed sampleCommand Real.sqrt (some ⟨1⟩) o.motor 0
          3).m_jump_state = JumpState.falling →
        (calculatedDesiredMoveSpeed sampleCommand Real.sqrt (some ⟨1⟩) o.motor 0
          3).m_vertical_move_speed ≤ 0) := by
  obtain ⟨o, h1, h2, -⟩ := vertical_speed_sign_tracks_phase sampleCommand Real.sqrt sampleMove
    (sampleGrounded ℝ) [⟨some ⟨1⟩, 16, Quaternion.IDENTITY, 1⟩]
    ⟨some ⟨1⟩, 0, Quaternion.IDENTITY, 3⟩ (fun x _ => Real.sqrt_nonneg x)
    ⟨by simp [sampleGrounded], by simp [sampleGrounded, sampleMotor]⟩ rfl rfl
    (by show (0 : ℝ) ≤ 2; norm_num)
    (by
      intro i hi
      simp only [List.singleton_append, List.mem_cons, List.mem_singleton, List.not_mem_nil,
        or_false] at hi
      rcases hi with h | h <;> subst h
      · refine ⟨by norm_num, ?_⟩
        intro l hl
        simp only [Option.some.injEq] at hl
        subst hl
        norm_num
      · refine ⟨by norm_num, ?_⟩
        intro l hl
        simp only [Option.some.injEq] at hl
        subst hl
        norm_num)
  exact ⟨o, h1, h2⟩

/-- C19. The launch tick does not re-resolve the direction. A tick with an
active level and a recognised command that starts idle with the jump bit set
succeeds, ends rising, and leaves the horizontal direction as it was stored, for
every facing rotation and every combination of direction bits. If the stored
direction was zero, the displacement of the launch tick has zero x and y, and so
has the displacement of every later frame of the jump (frames with recognised
commands that start rising or falling). -/
theorem launch_keeps_direction (gc : GameCommand) (sqrt : F → F)
    (move : CharacterController F → Vector3 F → Vector3 F → Vector3 F)
    (level : Level F) (command : Nat) (o : GObject F) (delta_time : F)
    (hwf : o.wellFormed) (hvalid : command < gc.invalid)
    (hidle : o.motor.m_jump_state = JumpState.idle)
    (hjump : bitSet gc.jump command = true) :
    ∃ o', tickPlayerMotor gc sqrt move (some level) command o delta_time = some o' ∧
      o'.motor.m_jump_state = JumpState.rising ∧
      o'.motor.m_desired_horizontal_move_direction
        = o.motor.m_desired_horizontal_move_direction ∧
      (o.motor.m_desired_horizontal_move_direction = Vector3.ZERO →
        o'.motor.m_desired_displacement.x = 0 ∧ o'.motor.m_desired_displacement.y = 0 ∧
        ∀ (ticks : List (TickInput F)) (last : TickInput F),
          (∀ i ∈ ticks ++ [last], i.command < gc.invalid) →
          (∀ k ≤ ticks.length, ∀ ok, runTicks gc sqrt move o' (ticks.take k) = some ok →
            ok.motor.m_jump_state = JumpState.rising ∨
            ok.motor.m_jump_state = JumpState.falling) →
          ∃ o'', runTicks gc sqrt move o' (ticks ++ [last]) = some o'' ∧
            o''.motor.m_desired_horizontal_move_direction = Vector3.ZERO ∧
            o''.motor.m_desired_displacement.x = 0 ∧
            o''.motor.m_desired_displacement.y = 0) := by
  obtain ⟨o', ho', hwf', -, -, -⟩ :=
    tickPlayerMotor_wellFormed gc sqrt move (some level) command o delta_time hwf
  have hl := calculatedDesiredMoveSpeed_launch gc sqrt level o.motor command delta_time
    hidle hjump
  have hj := tickPlayerMotor_jump_state gc sqrt move (some level) command o o' delta_time
    hvalid ho'
  rw [hl.1] at hj
  have hrise : o'.motor.m_jump_state = JumpState.rising := by
    rw [hj]; simp
  obtain ⟨t, -, -, -, -, -, -, hd, hdisp, -, -, -, -⟩ :=
    tickPlayerMotor_fields gc sqrt move (some level) command o o' delta_time hvalid ho'
  have hat : atDisplacement gc sqrt (some level) o.motor command delta_time t.m_rotation
      = calculatedDesiredMoveSpeed gc sqrt (some level) o.motor command delta_time := by
    unfold atDisplacement
    exact calculatedDesiredMoveDirection_airborne gc sqrt _ command t.m_rotation
      (by rw [hl.1]; simp)
  have hs := calculatedDesiredMoveSpeed_frame gc sqrt (some level) o.motor command delta_time
  have hdir : o'.motor.m_desired_horizontal_move_direction
      = o.motor.m_desired_horizontal_move_direction := by
    rw [hd, hat, hs.2.2.2.1]
  refine ⟨o', ho', hrise, hdir, ?_⟩
  intro hzero
  rw [calculateDesiredDisplacement_value, hat, hs.2.2.2.1, hzero] at hdisp
  refine ⟨?_, ?_, ?_⟩
  · rw [hdisp]
    simp [Vector3.add_eq, Vector3.scale_eq, Vector3.ZERO, Vector3.UNIT_Z]
  · rw [hdisp]
    simp [Vector3.add_eq, Vector3.scale_eq, Vector3.ZERO, Vector3.UNIT_Z]
  · intro ticks last hv hair
    obtain ⟨o'', ho'', -, hdir'', -, hdisp''⟩ := runTicks_airborne gc sqrt move ticks last o'
      hwf' hv (fun k hk ok hok => by
        rcases hair k hk ok hok with h | h <;> rw [h] <;> simp)
    rw [hdir, hzero] at hdir'' hdisp''
    refine ⟨o'', ho'', hdir'', ?_, ?_⟩
    · rw [hdisp'']
      simp [Vector3.add_eq, Vector3.scale_eq, Vector3.ZERO, Vector3.UNIT_Z]
    · rw [hdisp'']
      simp [Vector3.add_eq, Vector3.scale_eq, Vector3.ZERO, Vector3.UNIT_Z]

/-- Witness of C19: from rest with a zero stored direction, forward together
with jump (bits 0 and 4) under gravity 10: the launch displacement has zero x
and y. -/
theorem launch_keeps_direction_witness :
    ∃ o', tickPlayerMotor sampleCommand Real.sqrt sampleMove (some ⟨10⟩) 17 (sampleGrounded ℝ) 1
        = some o' ∧
      o'.motor.m_jump_state = JumpState.rising ∧
      o'.motor.m_desired_horizontal_move_direction = Vector3.ZERO ∧
      o'.motor.m_desired_displacement.x = 0 ∧ o'.motor.m_desired_displacement.y = 0 := by
  obtain ⟨o', h1, h2, h3, h4⟩ := launch_keeps_direction sampleCommand Real.sqrt sampleMove ⟨10⟩
    17 (sampleGrounded ℝ) 1 ⟨by simp [sampleGrounded], by simp [sampleGrounded, sampleMotor]⟩
    (by simp [sampleCommand]) rfl (by decide)
  obtain ⟨h5, h6, -⟩ := h4 rfl
  exact ⟨o', h1, h2, h3, h5, h6⟩

/-! ### Evaluations in binary32 -/

set_option maxRecDepth 100000

/-- C10, as the code has it, in binary32. Facing the rotation with w = 1 and
z = 2^-30 (a tiny turn about the vertical axis), forward alone resolves to
(2^-29, -1, 0), but forward+left+right (bits 0, 2, 3) resolves to (0, -1, 0): the
sum `forward + left` has already lost the small x of forward when left is taken
away again. Facing (w, z) = (0.28f, 0.96f) the two directions differ as well.
Forward+backward+left still resolves like left alone. -/
theorem left_right_do_not_cancel_in_binary32 :
    (calculatedDesiredMoveDirection sampleCommand Float32.sqrt (MotorComponent.initial Float32)
        1 ⟨1, 0, 0, ⟨1, -30⟩⟩).m_desired_horizontal_move_direction = ⟨⟨1, -29⟩, -1, 0⟩ ∧
    (calculatedDesiredMoveDirection sampleCommand Float32.sqrt (MotorComponent.initial Float32)
        13 ⟨1, 0, 0, ⟨1, -30⟩⟩).m_desired_horizontal_move_direction = ⟨0, -1, 0⟩ ∧
    (calculatedDesiredMoveDirection sampleCommand Float32.sqrt (MotorComponent.initial Float32)
        13 ⟨1, 0, 0, ⟨1, -30⟩⟩).m_desired_horizontal_move_direction
      ≠ (calculatedDesiredMoveDirection sampleCommand Float32.sqrt
        (MotorComponent.initial Float32) 1
        ⟨1, 0, 0, ⟨1, -30⟩⟩).m_desired_horizontal_move_direction ∧
    (calculatedDesiredMoveDirection sampleCommand Float32.sqrt (MotorComponent.initial Float32)
        13 ⟨⟨9395241, -25⟩, 0, 0, ⟨16106127, -24⟩⟩).m_desired_horizontal_move_direction
      ≠ (calculatedDesiredMoveDirection sampleCommand Float32.sqrt
        (MotorComponent.initial Float32) 1
        ⟨⟨9395241, -25⟩, 0, 0, ⟨16106127, -24⟩⟩).m_desired_horizontal_move_direction ∧
    (calculatedDesiredMoveDirection sampleCommand Float32.sqrt (MotorComponent.initial Float32)
        7 ⟨1, 0, 0, ⟨1, -30⟩⟩).m_desired_horizontal_move_direction
      = (calculatedDesiredMoveDirection sampleCommand Float32.sqrt
        (MotorComponent.initial Float32) 4
        ⟨1, 0, 0, ⟨1, -30⟩⟩).m_desired_horizontal_move_direction := by
  decide

end Theorems

end Pilot
